import Mathlib

/-!
FactoriGOChatBot: the message relay of `main.go`.

A shallow embedding of the log-line classifier (`parseAndFormatMessage`,
`parseModLogEntries`), of the chat-to-game path (`onReceiveDiscordMessage`,
`parseDiscordMessage`, `sendMessageToFactorio`) and of the command handler
(`handleCommands`, `getSeedFromFactorio`).

Conventions of the embedding.

* A Go `string` is the list of its runes (`List Char`); every pattern and every
  literal of the program is ASCII, so rune-wise and byte-wise reading agree on
  valid UTF-8 text.
* Go `int` is the 64-bit signed integer of the usual build targets; values are
  kept in `Int`, additions are reduced by `wrapInt` and `%` is `Int.tmod`.
* The package-level variables (`playersOnline`, `seed`) and everything the
  program hands to a channel or to an external client are fields of `World`;
  a send appends to the corresponding list.
* A run-time panic (an index out of range, a nil pointer) is the result `none`.
* Each regular expression of the program is a matcher written out by hand
  after the leftmost-first semantics of Go's `regexp`; the pattern is quoted in
  the doc comment of its matcher.
-/

namespace FactoriGO

/-- Go strings as rune sequences. -/
abbrev GoString := List Char

/-! ## Character classes of `regexp/syntax` -/

/-- The class `\d`, the ASCII digits. -/
def isDigitRune (c : Char) : Bool :=
  decide (48 ≤ c.toNat) && decide (c.toNat ≤ 57)

/-- The class `\w`, that is `[0-9A-Za-z_]`. -/
def isWordRune (c : Char) : Bool :=
  isDigitRune c
    || (decide (65 ≤ c.toNat) && decide (c.toNat ≤ 90))
    || (decide (97 ≤ c.toNat) && decide (c.toNat ≤ 122))
    || decide (c.toNat = 95)

/-- The class `\s`, that is `[\t\n\f\r ]`; `\S` is its complement. -/
def isSpaceRune (c : Char) : Bool :=
  decide (c.toNat = 9) || decide (c.toNat = 10) || decide (c.toNat = 12)
    || decide (c.toNat = 13) || decide (c.toNat = 32)

/-- The class `[\w -]` of the `PLAYER_DIED` pattern. -/
def isFieldRune (c : Char) : Bool :=
  isWordRune c || decide (c.toNat = 32) || decide (c.toNat = 45)

/-- The class `.` without the `s` flag: every rune but the line feed. -/
def isDotRune (c : Char) : Bool :=
  !decide (c.toNat = 10)

/-! ## Library functions of `strings`, `strconv` and `fmt` -/

/-- Go `strings.HasPrefix`. -/
def strings_HasPrefix (s pre : GoString) : Bool :=
  pre.isPrefixOf s

/-- Go `strings.Contains`. -/
def strings_Contains : GoString → GoString → Bool
  | [], substr => substr.isEmpty
  | c :: cs, substr => substr.isPrefixOf (c :: cs) || strings_Contains cs substr

/-- Worker of `strings_Replace`: `skip` runes of a replaced occurrence are
still to be dropped. -/
def replaceFrom (old new : GoString) : Nat → GoString → GoString
  | _, [] => []
  | skip + 1, _ :: cs => replaceFrom old new skip cs
  | 0, c :: cs =>
    if old.isPrefixOf (c :: cs) then new ++ replaceFrom old new (old.length - 1) cs
    else c :: replaceFrom old new 0 cs

/-- Go `strings.Replace(s, old, new, -1)` for a non-empty `old`: every
non-overlapping occurrence, from the left. -/
def strings_Replace (s old new : GoString) : GoString :=
  replaceFrom old new 0 s

/-- Go `strings.Split(s, sep)` for a separator of one rune. -/
def strings_Split (sep : Char) : GoString → List GoString
  | [] => [[]]
  | c :: cs =>
    if c = sep then [] :: strings_Split sep cs
    else
      match strings_Split sep cs with
      | [] => [[c]]
      | seg :: segs => (c :: seg) :: segs

/-- Go `strings.Join(parts, sep)` for a separator of one rune. -/
def strings_Join (sep : Char) : List GoString → GoString
  | [] => []
  | [seg] => seg
  | seg :: seg2 :: segs => seg ++ sep :: strings_Join sep (seg2 :: segs)

/-- Largest value of Go's `int`. -/
def maxInt : Int := 2 ^ 63 - 1

/-- Smallest value of Go's `int`. -/
def minInt : Int := -(2 ^ 63)

/-- Two's-complement reduction of an integer into the range of `int`. -/
def wrapInt (i : Int) : Int :=
  (i + 2 ^ 63) % 2 ^ 64 - 2 ^ 63

/-- Value of a string of decimal digits, read from the left. -/
def decimalValue (ds : GoString) : Nat :=
  ds.foldl (fun acc c => 10 * acc + (c.toNat - 48)) 0

/-- Go `strconv.Atoi`, the value only (the program discards the error): a
syntax error gives `0`, a value out of range gives the nearest bound. -/
def strconv_Atoi (s : GoString) : Int :=
  let neg : Bool := s.head? = some '-'
  let body : GoString :=
    match s with
    | c :: cs => if c = '+' ∨ c = '-' then cs else c :: cs
    | [] => []
  if body.isEmpty || !body.all isDigitRune then 0
  else if neg then
    if (decimalValue body : Int) > 2 ^ 63 then minInt else -(decimalValue body : Int)
  else
    if (decimalValue body : Int) > maxInt then maxInt else (decimalValue body : Int)

/-- Go `strconv.Itoa` and the verb `%d`. -/
def strconv_Itoa (i : Int) : GoString :=
  if i < 0 then '-' :: Nat.toDigits 10 i.natAbs else Nat.toDigits 10 i.toNat

/-! ## The regular expressions of the program -/

/-- Unanchored search: the anchored matcher is tried at every offset, from the
left, and the first success wins. -/
def findLeftmost {α : Type} (matchAt : GoString → Option α) : GoString → Option α
  | [] => matchAt []
  | c :: cs =>
    match matchAt (c :: cs) with
    | some r => some r
    | none => findLeftmost matchAt cs

/-- A greedy run of the class `p` that must be followed by `stop`, a rune
outside the class: the capture is the run. -/
def runThen (p : Char → Bool) (stop : Char) : GoString → Option GoString
  | [] => none
  | c :: cs =>
    if p c then (runThen p stop cs).map (fun g => c :: g)
    else if c = stop then some []
    else none

/-- Anchored form of `\[(\w*)]`. -/
def tagAt : GoString → Option GoString
  | c :: r => if c = '[' then runThen isWordRune ']' r else none
  | [] => none

/-- The call `FindStringSubmatch` of `(?m)\[(\w*)]`: the whole match and the
group, or the empty slice. -/
def reTag (message : GoString) : List GoString :=
  match findLeftmost tagAt message with
  | some g => [('[' :: g) ++ [']'], g]
  | none => []

/-- The last occurrence of `: ` in a text: what stands before it and after it. -/
def splitLastColonSpace : GoString → Option (GoString × GoString)
  | [] => none
  | c :: cs =>
    match splitLastColonSpace cs with
    | some (a, b) => some (c :: a, b)
    | none => if [':', ' '].isPrefixOf (c :: cs) then some ([], cs.drop 1) else none

/-- Anchored form of `] (.*): (.*)`: both groups stay on the line; the first,
being greedy, runs to the last `: ` of the line. -/
def chatAt : GoString → Option (GoString × GoString)
  | c :: d :: r =>
    if c = ']' ∧ d = ' ' then splitLastColonSpace (r.takeWhile isDotRune) else none
  | _ => none

/-- The call `FindStringSubmatch` of `(?m)] (.*): (.*)`. -/
def reChat (message : GoString) : List GoString :=
  match findLeftmost chatAt message with
  | some (a, b) => [']' :: ' ' :: (a ++ ':' :: ' ' :: b), a, b]
  | none => []

/-- Anchored form of `] (\w*)`. -/
def nameAt : GoString → Option GoString
  | c :: d :: r => if c = ']' ∧ d = ' ' then some (r.takeWhile isWordRune) else none
  | _ => none

/-- The call `FindStringSubmatch` of `(?m)] (\w*)`. -/
def reName (message : GoString) : List GoString :=
  match findLeftmost nameAt message with
  | some g => [']' :: ' ' :: g, g]
  | none => []

/-- A lazy `.*` that must be followed by `:`: the text up to the first colon
of the line. -/
def lazyUntilColon : GoString → Option GoString
  | [] => none
  | c :: cs =>
    if c = ':' then some []
    else if isDotRune c then (lazyUntilColon cs).map (fun g => c :: g)
    else none

/-- Anchored form of `(?U) \[(.*):`. -/
def subTagAt : GoString → Option GoString
  | c :: d :: r => if c = ' ' ∧ d = '[' then lazyUntilColon r else none
  | _ => none

/-- The call `FindStringSubmatch` of `(?mU) \[(.*):`. -/
def reSubTag (message : GoString) : List GoString :=
  match findLeftmost subTagAt message with
  | some g => [' ' :: '[' :: (g ++ [':']), g]
  | none => []

/-- A greedy `\S*` that must be followed by `]`: the run of non-space runes up
to its last `]`. -/
def greedyUntilLastClose : GoString → Option GoString
  | [] => none
  | c :: cs =>
    if isSpaceRune c then none
    else
      match greedyUntilLastClose cs with
      | some g => some (c :: g)
      | none => if c = ']' then some [] else none

/-- Anchored form of `:(\S*)]`. -/
def techAt : GoString → Option GoString
  | c :: r => if c = ':' then greedyUntilLastClose r else none
  | [] => none

/-- The call `FindStringSubmatch` of `(?m):(\S*)]`. -/
def reTech (message : GoString) : List GoString :=
  match findLeftmost techAt message with
  | some g => [':' :: (g ++ [']']), g]
  | none => []

/-- Anchored form of `:(\d*)]`. -/
def countAt : GoString → Option GoString
  | c :: r => if c = ':' then runThen isDigitRune ']' r else none
  | [] => none

/-- The call `FindStringSubmatch` of `(?m):(\d*)]`. -/
def reCount (message : GoString) : List GoString :=
  match findLeftmost countAt message with
  | some g => [':' :: (g ++ [']']), g]
  | none => []

/-- The call `FindAllStringSubmatch(message, -1)` of `(?m):([\w -]*)+`: one
match per colon, the group being the run of `[\w -]` after it (the engine
enters the group once per offset, so the repetition adds nothing, and a run
holds no colon, so the matches never overlap). -/
def reDied : GoString → List (List GoString)
  | [] => []
  | c :: cs =>
    if c = ':' then
      [':' :: cs.takeWhile isFieldRune, cs.takeWhile isFieldRune] :: reDied cs
    else reDied cs

/-! ## Configuration and state -/

/-- The settings of `loadConfig` (see the Readme of the program). -/
structure botConfig where
  logLevel : GoString
  discordToken : GoString
  discordChannelId : GoString
  rconIp : GoString
  rconPort : Int
  rconPassword : GoString
  factorioLog : GoString
  modLog : GoString
  pollLog : Bool
  allRocketLaunches : Bool
  achievementMode : Bool
  sendGPSPing : Bool
  sendJoinLeave : Bool
  deriving DecidableEq

/-- The two values of `discordgo.ActivityType` the program uses. -/
inductive ActivityType where
  | ActivityTypeWatching
  | ActivityTypeListening
  deriving DecidableEq

/-- The fields of `discordgo.Activity` the program sets; `Kind` is its field
`Type`. -/
structure Activity where
  Name : GoString
  Kind : ActivityType
  deriving DecidableEq

/-- The package-level variables and the traffic of the program so far: what
was sent on each channel, what was handed to the console client and what was
posted through the chat session directly. -/
structure World where
  playersOnline : Int
  seed : GoString
  messagesToDiscord : List GoString
  messagesToFactorio : List GoString
  commands : List GoString
  discordActivities : List Activity
  rconExecuted : List GoString
  channelMessageSend : List (GoString × GoString)
  deriving DecidableEq

/-- The console client: the answer of `Execute` to a command, given the
commands executed before it; `none` is a non-nil error. -/
abbrev RconClient := List GoString → GoString → Option GoString

/-- The part of the `gomoji` package the program calls: `ContainsEmoji`, and
`FindAll` as the pairs of `Character` and `Slug`. -/
structure Gomoji where
  ContainsEmoji : GoString → Bool
  FindAll : GoString → List (GoString × GoString)

/-- The function `updateDiscordStatus`: one send on `discordActivities`. -/
def updateDiscordStatus (activityType : ActivityType) (name : GoString) (w : World) : World :=
  { w with discordActivities := w.discordActivities ++ [{ Name := name, Kind := activityType }] }

/-! ## The log-line classifier -/

/-- The text of the rocket announcement. -/
def rocketMessage (launchAmount : Int) : GoString :=
  ":rocket: :rocket: :rocket: A rocket has been launched! (".toList
    ++ strconv_Itoa launchAmount ++ " times)".toList

/-- The function `parseModLogEntries`. -/
def parseModLogEntries (config : botConfig) (message : GoString) (w : World) :
    Option (GoString × World) :=
  let messageType := reSubTag message
  if messageType.length < 1 then some ([], w)
  else
    match messageType[1]? with
    | none => none
    | some subTag =>
      if subTag = "RESEARCH_STARTED".toList then
        match (reTech message)[1]? with
        | none => none
        | some tech => some (":microscope: | Research started: `".toList ++ tech ++ "`".toList, w)
      else if subTag = "RESEARCH_FINISHED".toList then
        match (reTech message)[1]? with
        | none => none
        | some tech =>
          some (":microscope: | Research finished: `".toList ++ tech ++ "`".toList,
            updateDiscordStatus .ActivityTypeListening tech w)
      else if subTag = "PLAYER_DIED".toList then
        let found := reDied message
        match found[1]? with
        | none => none
        | some m1 =>
          match m1[1]? with
          | none => none
          | some player =>
            let w1 := updateDiscordStatus .ActivityTypeWatching (player ++ " dying".toList) w
            if found.length = 2 then
              some (":skull: | Player died: `".toList ++ player ++ "` (unknown cause)".toList, w1)
            else
              match found[2]? with
              | none => none
              | some m2 =>
                match m2[1]? with
                | none => none
                | some cause0 =>
                  let addText0 : GoString :=
                    if cause0 = "locomotive".toList ∨ cause0 = "cargo-wagon".toList
                        ∨ cause0 = "artillery-wagon".toList ∨ cause0 = "fluid-wagon".toList
                    then " (hahaha!)".toList else []
                  let addText : GoString :=
                    if cause0 = "cargo-wagon".toList ∨ cause0 = "artillery-wagon".toList
                        ∨ cause0 = "fluid-wagon".toList
                    then " (hahaha! how the hell did you do that?!?!)".toList else addText0
                  let cause : GoString := if cause0 = [] then "unknown".toList else cause0
                  if found.length = 3 then
                    some (":skull: | Player died: `".toList ++ player ++ "`, cause: `".toList
                      ++ cause ++ "`".toList ++ addText, w1)
                  else if found.length = 5 then
                    match found[3]? with
                    | none => none
                    | some m3 =>
                      match m3[1]?, found[4]? with
                      | some times, some m4 =>
                        match m4[1]? with
                        | none => none
                        | some deaths =>
                          some (":skull: | Player died: `".toList ++ player
                            ++ "`, cause: `".toList ++ cause ++ "`".toList ++ addText
                            ++ " (".toList ++ times ++ " times out of ".toList ++ deaths
                            ++ " deaths)".toList, w1)
                      | _, _ => none
                  else some ([], w1)
      else if subTag = "ROCKET_LAUNCHED".toList then
        let w1 := updateDiscordStatus .ActivityTypeWatching "a rocket launch".toList w
        match (reCount message)[1]? with
        | none => none
        | some digits =>
          let launchAmount := strconv_Atoi digits
          if config.allRocketLaunches then some (rocketMessage launchAmount, w1)
          else if launchAmount ≤ 5 then some (rocketMessage launchAmount, w1)
          else if launchAmount ≥ 10 ∧ launchAmount < 100 ∧ launchAmount.tmod 10 = 0 then
            some (rocketMessage launchAmount, w1)
          else if launchAmount ≥ 100 ∧ launchAmount.tmod 100 = 0 then
            some (rocketMessage launchAmount, w1)
          else some ([], w1)
      else some ([], w)

/-- The function `parseAndFormatMessage`. -/
def parseAndFormatMessage (config : botConfig) (message : GoString) (w : World) :
    Option (GoString × World) :=
  let messageType := reTag message
  if messageType.length < 2 then some ([], w)
  else
    match messageType[1]? with
    | none => none
    | some tag =>
      if tag = "FactoriGOChatBot".toList then parseModLogEntries config message w
      else if tag = "CHAT".toList then
        let found := reChat message
        match found[2]? with
        | none => none
        | some messageContent =>
          if strings_Contains messageContent "[gps=".toList then
            if config.sendGPSPing then
              match found[1]? with
              | none => none
              | some speaker =>
                some (":map: | `".toList ++ speaker ++ "`: ".toList ++ messageContent, w)
            else some ([], w)
          else
            match found[1]? with
            | none => none
            | some speaker =>
              if config.achievementMode ∧ strings_HasPrefix speaker "<server>: ".toList then
                some ([], w)
              else
                some (":speech_left: | `".toList ++ speaker ++ "`: ".toList ++ messageContent, w)
      else if tag = "JOIN".toList then
        let w1 := { w with playersOnline := wrapInt (w.playersOnline + 1) }
        if !config.sendJoinLeave then some ([], w1)
        else
          match (reName message)[1]? with
          | none => none
          | some name => some (":green_circle: | `".toList ++ name ++ "` joined the game!".toList, w1)
      else if tag = "LEAVE".toList then
        let w1 := { w with playersOnline := wrapInt (w.playersOnline - 1) }
        if !config.sendJoinLeave then some ([], w1)
        else
          match (reName message)[1]? with
          | none => none
          | some name => some (":red_circle: | `".toList ++ name ++ "` left the game!".toList, w1)
      else some ([], w)

/-- The loop of `readFactorioLogFile` over the lines the tail delivers: each
line is classified and a non-empty result is sent on `messagesToDiscord`. -/
def readFactorioLogFile (config : botConfig) : List GoString → World → Option World
  | [], w => some w
  | line :: rest, w =>
    match parseAndFormatMessage config line w with
    | none => none
    | some (message, w1) =>
      if message ≠ [] then
        readFactorioLogFile config rest
          { w1 with messagesToDiscord := w1.messagesToDiscord ++ [message] }
      else readFactorioLogFile config rest w1

/-! ## From the chat to the game -/

/-- The console command `sendMessageToFactorio` builds for one message. -/
def factorioCommand (config : botConfig) (message : GoString) : GoString :=
  let message := strings_Replace message "'".toList "\\'".toList
  if config.achievementMode then
    "[color=#7289DA][Discord]".toList ++ message ++ "[/color]".toList
  else
    "/silent-command game.print('[color=#7289DA][Discord]".toList ++ message
      ++ "[/color]')".toList

/-- The loop of `sendMessageToFactorio` over the messages received from
`messagesToFactorio`: each command is handed to `Execute`, whose error is only
logged. -/
def sendMessageToFactorio (config : botConfig) : List GoString → World → World
  | [], w => w
  | message :: rest, w =>
    sendMessageToFactorio config rest
      { w with rconExecuted := w.rconExecuted ++ [factorioCommand config message] }

/-- The function `parseDiscordMessage`. -/
def parseDiscordMessage (gomoji : Gomoji) (message : GoString) : List GoString :=
  let message :=
    if gomoji.ContainsEmoji message then
      (gomoji.FindAll message).foldl
        (fun msg emoji => strings_Replace msg emoji.1 ("**".toList ++ emoji.2 ++ "**".toList))
        message
    else message
  strings_Split '\n' message

/-- The loop at the end of `onReceiveDiscordMessage`. -/
def forwardMessages (nick : GoString) : List GoString → World → World
  | [], w => w
  | message :: rest, w =>
    let w1 :=
      if message.take 1 = "!".toList then { w with commands := w.commands ++ [message] }
      else w
    forwardMessages nick rest
      { w1 with messagesToFactorio :=
          w1.messagesToFactorio ++ ["[".toList ++ nick ++ "]: ".toList ++ message] }

/-- The function `onReceiveDiscordMessage`. Of the event it reads the author
(`authorID`, `username`; the author is part of every message-create event), the
member data (`member` is the `Nick` of `m.Member`, and `none` when `m.Member` is
nil, as for a message a webhook posted), the channel and the content; of the
session it reads the own user (`selfID`). Reading `m.Member.Nick` of a nil
member is a nil-pointer panic, the result `none`. -/
def onReceiveDiscordMessage (config : botConfig) (gomoji : Gomoji)
    (selfID authorID username : GoString) (member : Option GoString)
    (channelID content : GoString) (w : World) : Option World :=
  if authorID = selfID then some w
  else if channelID ≠ config.discordChannelId then some w
  else
    let w1 :=
      if content = "ping".toList then
        { w with channelMessageSend := w.channelMessageSend ++ [(channelID, "Pong!".toList)] }
      else w
    match member with
    | none => none
    | some memberNick =>
      let nick := if memberNick = [] then username else memberNick
      some (forwardMessages nick (parseDiscordMessage gomoji content) w1)

/-! ## Commands -/

/-- The function `getSeedFromFactorio`. -/
def getSeedFromFactorio (rconClient : RconClient) (w : World) : GoString × World :=
  if w.seed ≠ [] then (w.seed, w)
  else
    let w1 := { w with rconExecuted := w.rconExecuted ++ ["/seed".toList] }
    match rconClient w.rconExecuted "/seed".toList with
    | none => ("Unknown".toList, w1)
    | some msg => (msg, { w1 with seed := msg })

/-- The body of the loop of `handleCommands` for one command. -/
def handleCommand (rconClient : RconClient) (command : GoString) (w : World) : World :=
  if command = "!online".toList then
    { w with messagesToDiscord :=
        w.messagesToDiscord ++ [strconv_Itoa w.playersOnline ++ " players online".toList] }
  else if command = "!seed".toList then
    let r := getSeedFromFactorio rconClient w
    { r.2 with messagesToDiscord := r.2.messagesToDiscord ++ [r.1] }
  else if command = "!evolution".toList then
    let w1 := { w with rconExecuted := w.rconExecuted ++ ["/evolution".toList] }
    let msg :=
      match rconClient w.rconExecuted "/evolution".toList with
      | none => "Unknown".toList
      | some msg => msg
    { w1 with messagesToDiscord := w1.messagesToDiscord ++ [msg] }
  else w

/-- The function `handleCommands` over the commands received from `commands`. -/
def handleCommands (rconClient : RconClient) : List GoString → World → World
  | [], w => w
  | command :: rest, w => handleCommands rconClient rest (handleCommand rconClient command w)

/-! ## Notions the statements use -/

/-- A configuration with every switch off. -/
def plainConfig : botConfig :=
  { logLevel := [], discordToken := [], discordChannelId := [], rconIp := [], rconPort := 0,
    rconPassword := [], factorioLog := [], modLog := [], pollLog := false,
    allRocketLaunches := false, achievementMode := false, sendGPSPing := false,
    sendJoinLeave := false }

/-- The state at start-up: no player, no seed, nothing sent. -/
def initialWorld : World :=
  { playersOnline := 0, seed := [], messagesToDiscord := [], messagesToFactorio := [],
    commands := [], discordActivities := [], rconExecuted := [], channelMessageSend := [] }

/-- A `JOIN` line of the game log: a stretch without brackets (the time
stamp), the tag, and the text that starts with the player name. -/
def joinLine (p : GoString × GoString) : GoString :=
  p.1 ++ "[JOIN] ".toList ++ p.2

/-- A `LEAVE` line of the game log. -/
def leaveLine (p : GoString × GoString) : GoString :=
  p.1 ++ "[LEAVE] ".toList ++ p.2

/-- The announcement of a `JOIN` line. -/
def joinAnnouncement (p : GoString × GoString) : GoString :=
  ":green_circle: | `".toList ++ p.2.takeWhile isWordRune ++ "` joined the game!".toList

/-- The announcement of a `LEAVE` line. -/
def leaveAnnouncement (p : GoString × GoString) : GoString :=
  ":red_circle: | `".toList ++ p.2.takeWhile isWordRune ++ "` left the game!".toList

/-- What a run of announcements adds to `messagesToDiscord`. -/
def announced (config : botConfig) (texts : List GoString) : List GoString :=
  if config.sendJoinLeave = true then texts else []

/-- The cause as the announcement shows it. -/
def shownCause (c : GoString) : GoString :=
  if c = [] then "unknown".toList else c

/-- The remark that follows the cause. -/
def deathSuffix (c : GoString) : GoString :=
  if c = "locomotive".toList then " (hahaha!)".toList
  else if c = "cargo-wagon".toList ∨ c = "artillery-wagon".toList ∨ c = "fluid-wagon".toList then
    " (hahaha! how the hell did you do that?!?!)".toList
  else []

/-- The announcement of a death with a cause. -/
def deathMessage (p c : GoString) : GoString :=
  ":skull: | Player died: `".toList ++ p ++ "`, cause: `".toList ++ shownCause c
    ++ "`".toList ++ deathSuffix c

/-- The tag of a line: the group of the first match of the tag pattern. -/
def lineTag (message : GoString) : Option GoString :=
  findLeftmost tagAt message

/-- The sub-tag of a mod line: the group of the first match of the sub-tag
pattern. -/
def lineSubTag (message : GoString) : Option GoString :=
  findLeftmost subTagAt message

/-- The tags `parseAndFormatMessage` knows. -/
def knownTags : List GoString :=
  ["FactoriGOChatBot".toList, "CHAT".toList, "JOIN".toList, "LEAVE".toList]

/-- The sub-tags `parseModLogEntries` knows. -/
def knownSubTags : List GoString :=
  ["RESEARCH_STARTED".toList, "RESEARCH_FINISHED".toList, "PLAYER_DIED".toList,
   "ROCKET_LAUNCHED".toList]

/-- What a `CHAT` line with speaker `s` and body `b` is answered with: a body
that contains `[gps=` gives the map ping if `sendGPSPing` is set and nothing
otherwise; any other body gives nothing for a server echo in achievement mode
and the chat text otherwise. -/
def chatAnnouncement (config : botConfig) (s b : GoString) : GoString :=
  if "[gps=".toList <:+: b then
    (if config.sendGPSPing = true then ":map: | `".toList ++ s ++ "`: ".toList ++ b else [])
  else if config.achievementMode = true ∧ "<server>: ".toList <+: s then []
  else ":speech_left: | `".toList ++ s ++ "`: ".toList ++ b

/-- A `gomoji` that finds no emoji. -/
def noEmoji : Gomoji :=
  { ContainsEmoji := fun _ => false, FindAll := fun _ => [] }

/-- A console that answers the first command with the seed and fails after. -/
def seedOnce : RconClient :=
  fun executed _ => if executed = [] then some "3735928559".toList else none

/-- A console whose first answer is empty. -/
def emptyThenSeed : RconClient :=
  fun executed _ => if executed = [] then some [] else some "3735928559".toList

/-- The text with every single quote replaced by a backslash and a quote. -/
def escapeQuotes : GoString → GoString
  | [] => []
  | c :: cs =>
    if c = '\'' then '\\' :: '\'' :: escapeQuotes cs else c :: escapeQuotes cs

/-- Every single quote of the text stands after an odd number of consecutive
backslashes; `n` counts the backslashes just read. -/
def quotesEscapedFrom : Nat → GoString → Bool
  | _, [] => true
  | n, c :: cs =>
    if c = '\\' then quotesEscapedFrom (n + 1) cs
    else if c = '\'' then decide (n % 2 = 1) && quotesEscapedFrom 0 cs
    else quotesEscapedFrom 0 cs

/-- A console that fails on every command. -/
def deadConsole : RconClient :=
  fun _ _ => none

/-! ## The matchers on sample lines -/

/-- The first group of the chat pattern is greedy: it runs to the last `: `. -/
theorem reChat_sample :
    reChat "12:00 [CHAT] bob: see: here".toList
      = ["] bob: see: here".toList, "bob: see".toList, "here".toList] := rfl

/-- The group of the sub-tag pattern is lazy: it stops at the first colon. -/
theorem reSubTag_sample :
    reSubTag "[FactoriGOChatBot]: [PLAYER_DIED:bob:locomotive]".toList
      = [" [PLAYER_DIED:".toList, "PLAYER_DIED".toList] := rfl

/-- The technology pattern skips a colon that no `]` follows in its run. -/
theorem reTech_sample :
    reTech "[FactoriGOChatBot]: [RESEARCH_STARTED:steel-axe]".toList
      = [":steel-axe]".toList, "steel-axe".toList] := rfl

/-- The death pattern matches once per colon. -/
theorem reDied_sample :
    reDied "[FactoriGOChatBot]: [PLAYER_DIED:bob:locomotive]".toList
      = [[": ".toList, " ".toList], [":bob".toList, "bob".toList],
         [":locomotive".toList, "locomotive".toList]] := rfl

/-- The tag pattern passes over a bracket that holds no word. -/
theorem reTag_sample :
    reTag "[12:00] [JOIN] bob joined the game".toList = ["[JOIN]".toList, "JOIN".toList] := rfl

/-! ## Lemmas on the matchers -/

theorem findLeftmost_skip {α : Type} (f : GoString → Option α) (pre m : GoString)
    (h : ∀ c ∈ pre, ∀ r, f (c :: r) = none) :
    findLeftmost f (pre ++ m) = findLeftmost f m := by
  induction pre with
  | nil => rfl
  | cons c cs ih =>
    have hc : f (c :: (cs ++ m)) = none := h c (List.mem_cons_self c cs) _
    have hcs : ∀ d ∈ cs, ∀ r, f (d :: r) = none := fun d hd r => h d (List.mem_cons_of_mem c hd) r
    rw [List.cons_append, findLeftmost, hc]
    exact ih hcs

theorem runThen_run (p : Char → Bool) (stop : Char) (g rest : GoString)
    (hg : ∀ c ∈ g, p c = true) (hstop : p stop = false) :
    runThen p stop (g ++ stop :: rest) = some g := by
  induction g with
  | nil => simp [runThen, hstop]
  | cons c cs ih =>
    have hc : p c = true := hg c (List.mem_cons_self c cs)
    have hcs : ∀ d ∈ cs, p d = true := fun d hd => hg d (List.mem_cons_of_mem c hd)
    simp [runThen, hc, ih hcs]

theorem reCount_rocket (ds : GoString) (hds : ∀ c ∈ ds, isDigitRune c = true) :
    reCount ("[FactoriGOChatBot]: [ROCKET_LAUNCHED:".toList ++ ds ++ "]".toList)
      = [':' :: (ds ++ [']']), ds] := by
  have h1 : findLeftmost countAt ("[FactoriGOChatBot]: [ROCKET_LAUNCHED:".toList ++ ds ++ "]".toList)
      = findLeftmost countAt (':' :: (ds ++ ']' :: [])) := rfl
  have h2 : runThen isDigitRune ']' (ds ++ ']' :: []) = some ds :=
    runThen_run isDigitRune ']' ds [] hds (by decide)
  rw [reCount, h1]
  simp [findLeftmost, countAt, h2]

theorem strconv_Atoi_digits (ds : GoString) (hne : ds ≠ [])
    (hds : ∀ c ∈ ds, isDigitRune c = true) (hfit : (decimalValue ds : Int) ≤ maxInt) :
    strconv_Atoi ds = (decimalValue ds : Int) := by
  cases ds with
  | nil => exact absurd rfl hne
  | cons c cs =>
    have hc : isDigitRune c = true := hds c (List.mem_cons_self c cs)
    have hplus : c ≠ '+' := by
      intro h; rw [h] at hc; revert hc; decide
    have hminus : c ≠ '-' := by
      intro h; rw [h] at hc; revert hc; decide
    have hall : (c :: cs).all isDigitRune = true := by
      rw [List.all_eq_true]; exact hds
    have hfit2 : ¬ ((decimalValue (c :: cs) : Int) > maxInt) := not_lt.mpr hfit
    simp [strconv_Atoi, hplus, hminus, hall, hfit2]

/-- C1, amended: on the line `[FactoriGOChatBot]: [ROCKET_LAUNCHED:<ds>]`, where
`ds` is a non-empty string of decimal digits whose value `n` fits Go's `int`
(`n ≤ 2^63 - 1`), `parseModLogEntries` sends the presence update and returns
the announcement `... A rocket has been launched! (n times)` exactly when
`allRocketLaunches` is set, or `n ≤ 5`, or `10 ≤ n ≤ 99` with `n` a multiple of
10, or `n ≥ 100` with `n` a multiple of 100; for every other `n` it returns the
empty string. -/
theorem rocket_cadence (config : botConfig) (w : World) (ds : GoString)
    (hne : ds ≠ []) (hds : ∀ c ∈ ds, isDigitRune c = true)
    (hfit : (decimalValue ds : Int) ≤ maxInt) :
    parseModLogEntries config
        ("[FactoriGOChatBot]: [ROCKET_LAUNCHED:".toList ++ ds ++ "]".toList) w
      = some
          (if config.allRocketLaunches = true ∨ decimalValue ds ≤ 5
              ∨ (10 ≤ decimalValue ds ∧ decimalValue ds ≤ 99 ∧ decimalValue ds % 10 = 0)
              ∨ (100 ≤ decimalValue ds ∧ decimalValue ds % 100 = 0)
           then ":rocket: :rocket: :rocket: A rocket has been launched! (".toList
                  ++ Nat.toDigits 10 (decimalValue ds) ++ " times)".toList
           else [],
           updateDiscordStatus .ActivityTypeWatching "a rocket launch".toList w) := by
  have hsub : reSubTag ("[FactoriGOChatBot]: [ROCKET_LAUNCHED:".toList ++ ds ++ "]".toList)
      = [" [ROCKET_LAUNCHED:".toList, "ROCKET_LAUNCHED".toList] := rfl
  have hcount := reCount_rocket ds hds
  have hatoi := strconv_Atoi_digits ds hne hds hfit
  have hmsg : rocketMessage (decimalValue ds : Int)
      = ":rocket: :rocket: :rocket: A rocket has been launched! (".toList
          ++ Nat.toDigits 10 (decimalValue ds) ++ " times)".toList := by
    simp [rocketMessage, strconv_Itoa]
  have h10 : ((decimalValue ds : Int)).tmod 10 = ((decimalValue ds % 10 : Nat) : Int) := by
    rw [Int.tmod_eq_emod (by omega) (by omega)]; omega
  have h100 : ((decimalValue ds : Int)).tmod 100 = ((decimalValue ds % 100 : Nat) : Int) := by
    rw [Int.tmod_eq_emod (by omega) (by omega)]; omega
  have e1 : ("ROCKET_LAUNCHED".toList = "RESEARCH_STARTED".toList) = False := by decide
  have e2 : ("ROCKET_LAUNCHED".toList = "RESEARCH_FINISHED".toList) = False := by decide
  have e3 : ("ROCKET_LAUNCHED".toList = "PLAYER_DIED".toList) = False := by decide
  unfold parseModLogEntries
  simp only [hsub, hcount, List.length_cons, List.length_nil, List.getElem?_cons_succ,
    List.getElem?_cons_zero, e1, e2, e3, if_false, if_true, hatoi, hmsg, h10, h100]
  generalize decimalValue ds = n
  rw [if_neg (by omega : ¬ (0 + 1 + 1 < 1))]
  cases hall : config.allRocketLaunches
  · simp only [Bool.false_eq_true, if_false, false_or]
    by_cases c1 : n ≤ 5
    · have i1 : (n : Int) ≤ 5 := by omega
      rw [if_pos i1, if_pos (Or.inl c1)]
    · have i1 : ¬ ((n : Int) ≤ 5) := by omega
      rw [if_neg i1]
      by_cases c2 : 10 ≤ n ∧ n ≤ 99 ∧ n % 10 = 0
      · have i2 : (n : Int) ≥ 10 ∧ (n : Int) < 100 ∧ ((n % 10 : Nat) : Int) = 0 := by omega
        rw [if_pos i2, if_pos (Or.inr (Or.inl c2))]
      · have i2 : ¬ ((n : Int) ≥ 10 ∧ (n : Int) < 100 ∧ ((n % 10 : Nat) : Int) = 0) := by omega
        rw [if_neg i2]
        by_cases c3 : 100 ≤ n ∧ n % 100 = 0
        · have i3 : (n : Int) ≥ 100 ∧ ((n % 100 : Nat) : Int) = 0 := by omega
          rw [if_pos i3, if_pos (Or.inr (Or.inr c3))]
        · have i3 : ¬ ((n : Int) ≥ 100 ∧ ((n % 100 : Nat) : Int) = 0) := by omega
          have c : ¬ (n ≤ 5 ∨ (10 ≤ n ∧ n ≤ 99 ∧ n % 10 = 0) ∨ (100 ≤ n ∧ n % 100 = 0)) := by
            rintro (h | h | h)
            · exact c1 h
            · exact c2 h
            · exact c3 h
          rw [if_neg i3, if_neg c]
  · simp only [if_true, true_or]

theorem rocket_cadence_witness :
    parseModLogEntries plainConfig "[FactoriGOChatBot]: [ROCKET_LAUNCHED:200]".toList initialWorld
        = some (":rocket: :rocket: :rocket: A rocket has been launched! (200 times)".toList,
            updateDiscordStatus .ActivityTypeWatching "a rocket launch".toList initialWorld)
      ∧ parseModLogEntries plainConfig "[FactoriGOChatBot]: [ROCKET_LAUNCHED:150]".toList
          initialWorld
        = some ([], updateDiscordStatus .ActivityTypeWatching "a rocket launch".toList
            initialWorld) :=
  ⟨rocket_cadence plainConfig initialWorld "200".toList (by decide) (by decide) (by decide),
   rocket_cadence plainConfig initialWorld "150".toList (by decide) (by decide) (by decide)⟩

/-- C1 as stated fails: the count 10000000000000000000 is a multiple of 100
above 100, yet with `allRocketLaunches` off the line is suppressed, because
`strconv.Atoi` answers a count beyond the range of `int` with `2^63 - 1`. -/
theorem rocket_cadence_beyond_int :
    decimalValue "10000000000000000000".toList = 10000000000000000000
      ∧ (100 ≤ 10000000000000000000 ∧ 10000000000000000000 % 100 = 0)
      ∧ strconv_Atoi "10000000000000000000".toList = 9223372036854775807
      ∧ parseModLogEntries plainConfig
          "[FactoriGOChatBot]: [ROCKET_LAUNCHED:10000000000000000000]".toList initialWorld
        = some ([], updateDiscordStatus .ActivityTypeWatching "a rocket launch".toList
            initialWorld) := by
  refine ⟨by decide, by decide, by decide, by rfl⟩

/-! ## Join and leave lines -/

theorem wrapInt_of_fits (i : Int) (h : minInt ≤ i ∧ i ≤ maxInt) : wrapInt i = i := by
  unfold wrapInt
  unfold minInt maxInt at h
  norm_num at h ⊢
  omega

theorem wrapInt_fits (i : Int) : minInt ≤ wrapInt i ∧ wrapInt i ≤ maxInt := by
  unfold wrapInt minInt maxInt
  norm_num
  omega

theorem wrapInt_add (i j : Int) : wrapInt (wrapInt i + j) = wrapInt (i + j) := by
  unfold wrapInt
  norm_num
  omega

theorem tagAt_ne (c : Char) (r : GoString) (h : c ≠ '[') : tagAt (c :: r) = none := by
  simp [tagAt, h]

theorem nameAt_ne (c : Char) (r : GoString) (h : c ≠ ']') : nameAt (c :: r) = none := by
  cases r <;> simp [nameAt, h]

theorem parse_joinLine (config : botConfig) (w : World) (p : GoString × GoString)
    (hp : ∀ c ∈ p.1, c ≠ '[' ∧ c ≠ ']') :
    parseAndFormatMessage config (joinLine p) w
      = some (if config.sendJoinLeave = true then joinAnnouncement p else [],
          { w with playersOnline := wrapInt (w.playersOnline + 1) }) := by
  have htag : reTag (joinLine p) = ["[JOIN]".toList, "JOIN".toList] := by
    unfold reTag joinLine
    rw [List.append_assoc, findLeftmost_skip tagAt p.1 _ (fun c hc r => tagAt_ne c r (hp c hc).1)]
    rfl
  have hname : reName (joinLine p)
      = [']' :: ' ' :: p.2.takeWhile isWordRune, p.2.takeWhile isWordRune] := by
    unfold reName joinLine
    rw [List.append_assoc, findLeftmost_skip nameAt p.1 _ (fun c hc r => nameAt_ne c r (hp c hc).2)]
    rfl
  have e1 : ("JOIN".toList = "FactoriGOChatBot".toList) = False := by decide
  have e2 : ("JOIN".toList = "CHAT".toList) = False := by decide
  unfold parseAndFormatMessage
  simp only [htag, hname, List.length_cons, List.length_nil, List.getElem?_cons_succ,
    List.getElem?_cons_zero, e1, e2, if_false, if_true]
  rw [if_neg (by omega : ¬ (0 + 1 + 1 < 2))]
  cases config.sendJoinLeave <;> simp [joinAnnouncement]

theorem parse_leaveLine (config : botConfig) (w : World) (p : GoString × GoString)
    (hp : ∀ c ∈ p.1, c ≠ '[' ∧ c ≠ ']') :
    parseAndFormatMessage config (leaveLine p) w
      = some (if config.sendJoinLeave = true then leaveAnnouncement p else [],
          { w with playersOnline := wrapInt (w.playersOnline - 1) }) := by
  have htag : reTag (leaveLine p) = ["[LEAVE]".toList, "LEAVE".toList] := by
    unfold reTag leaveLine
    rw [List.append_assoc, findLeftmost_skip tagAt p.1 _ (fun c hc r => tagAt_ne c r (hp c hc).1)]
    rfl
  have hname : reName (leaveLine p)
      = [']' :: ' ' :: p.2.takeWhile isWordRune, p.2.takeWhile isWordRune] := by
    unfold reName leaveLine
    rw [List.append_assoc, findLeftmost_skip nameAt p.1 _ (fun c hc r => nameAt_ne c r (hp c hc).2)]
    rfl
  have e1 : ("LEAVE".toList = "FactoriGOChatBot".toList) = False := by decide
  have e2 : ("LEAVE".toList = "CHAT".toList) = False := by decide
  have e3 : ("LEAVE".toList = "JOIN".toList) = False := by decide
  unfold parseAndFormatMessage
  simp only [htag, hname, List.length_cons, List.length_nil, List.getElem?_cons_succ,
    List.getElem?_cons_zero, e1, e2, e3, if_false, if_true]
  rw [if_neg (by omega : ¬ (0 + 1 + 1 < 2))]
  cases config.sendJoinLeave <;> simp [leaveAnnouncement]

theorem run_leaves (config : botConfig) (leaves : List (GoString × GoString))
    (hl : ∀ p ∈ leaves, ∀ c ∈ p.1, c ≠ '[' ∧ c ≠ ']') (w : World)
    (hw : minInt ≤ w.playersOnline ∧ w.playersOnline ≤ maxInt) :
    readFactorioLogFile config (leaves.map leaveLine) w
      = some { w with
          playersOnline := wrapInt (w.playersOnline - leaves.length),
          messagesToDiscord :=
            w.messagesToDiscord ++ announced config (leaves.map leaveAnnouncement) } := by
  induction leaves generalizing w with
  | nil =>
    simp [readFactorioLogFile, announced, wrapInt_of_fits _ hw]
  | cons p ps ih =>
    have hp := hl p (List.mem_cons_self p ps)
    have hps : ∀ q ∈ ps, ∀ c ∈ q.1, c ≠ '[' ∧ c ≠ ']' :=
      fun q hq => hl q (List.mem_cons_of_mem p hq)
    rw [List.map_cons, readFactorioLogFile, parse_leaveLine config w p hp]
    have hstep : wrapInt (wrapInt (w.playersOnline - 1) - (ps.length : Int))
        = wrapInt (w.playersOnline - ((p :: ps).length : Int)) := by
      rw [sub_eq_add_neg (wrapInt _), wrapInt_add]
      congr 1
      simp only [List.length_cons]
      push_cast
      ring
    cases hs : config.sendJoinLeave
    · simp only [Bool.false_eq_true, if_false, ne_eq, not_true_eq_false]
      rw [ih hps _ (wrapInt_fits _)]
      simp only [hstep, announced, hs, Bool.false_eq_true, if_false]
    · have hne : leaveAnnouncement p ≠ [] := by simp [leaveAnnouncement]
      simp only [if_true, ne_eq, hne, not_false_eq_true]
      rw [ih hps _ (wrapInt_fits _)]
      simp only [hstep, announced, hs, if_true, List.map_cons, List.append_assoc,
        List.singleton_append]

theorem run_joins_leaves (config : botConfig) (joins leaves : List (GoString × GoString))
    (hj : ∀ p ∈ joins, ∀ c ∈ p.1, c ≠ '[' ∧ c ≠ ']')
    (hl : ∀ p ∈ leaves, ∀ c ∈ p.1, c ≠ '[' ∧ c ≠ ']') (w : World)
    (hw : minInt ≤ w.playersOnline ∧ w.playersOnline ≤ maxInt) :
    readFactorioLogFile config (joins.map joinLine ++ leaves.map leaveLine) w
      = some { w with
          playersOnline := wrapInt (w.playersOnline + joins.length - leaves.length),
          messagesToDiscord :=
            w.messagesToDiscord
              ++ announced config (joins.map joinAnnouncement ++ leaves.map leaveAnnouncement) } := by
  induction joins generalizing w with
  | nil =>
    rw [List.map_nil, List.nil_append, run_leaves config leaves hl w hw]
    simp
  | cons p ps ih =>
    have hp := hj p (List.mem_cons_self p ps)
    have hps : ∀ q ∈ ps, ∀ c ∈ q.1, c ≠ '[' ∧ c ≠ ']' :=
      fun q hq => hj q (List.mem_cons_of_mem p hq)
    rw [List.map_cons, List.cons_append, readFactorioLogFile, parse_joinLine config w p hp]
    have hstep : wrapInt (wrapInt (w.playersOnline + 1) + (ps.length : Int) - (leaves.length : Int))
        = wrapInt (w.playersOnline + ((p :: ps).length : Int) - (leaves.length : Int)) := by
      rw [add_sub_assoc (wrapInt _), wrapInt_add]
      congr 1
      simp only [List.length_cons]
      push_cast
      ring
    cases hs : config.sendJoinLeave
    · simp only [Bool.false_eq_true, if_false, ne_eq, not_true_eq_false]
      rw [ih hps _ (wrapInt_fits _)]
      simp only [hstep, announced, hs, Bool.false_eq_true, if_false]
    · have hne : joinAnnouncement p ≠ [] := by simp [joinAnnouncement]
      simp only [if_true, ne_eq, hne, not_false_eq_true]
      rw [ih hps _ (wrapInt_fits _)]
      simp only [hstep, announced, hs, if_true, List.map_cons, List.append_assoc,
        List.singleton_append, List.cons_append, List.nil_append]

/-- C3, amended: from a counter `c` within the range of `int`, `N` lines
`<stamp>[JOIN] <text>` followed by `M` lines `<stamp>[LEAVE] <text>` (no
bracket in a stamp) all return, and leave `playersOnline` at `c + N - M` reduced
into the 64-bit range of `int`, which is `c + N - M` itself whenever that value
fits; nothing clamps the counter at zero. The flag `sendJoinLeave` only decides
whether the announcements, which name the leading word of each text, reach
`messagesToDiscord`; no other part of the state changes. -/
theorem join_leave_counter (config : botConfig) (joins leaves : List (GoString × GoString))
    (w : World)
    (hj : ∀ p ∈ joins, ∀ c ∈ p.1, c ≠ '[' ∧ c ≠ ']')
    (hl : ∀ p ∈ leaves, ∀ c ∈ p.1, c ≠ '[' ∧ c ≠ ']')
    (hw : minInt ≤ w.playersOnline ∧ w.playersOnline ≤ maxInt) :
    readFactorioLogFile config (joins.map joinLine ++ leaves.map leaveLine) w
        = some { w with
            playersOnline := wrapInt (w.playersOnline + joins.length - leaves.length),
            messagesToDiscord :=
              w.messagesToDiscord
                ++ (if config.sendJoinLeave = true
                    then joins.map joinAnnouncement ++ leaves.map leaveAnnouncement else []) }
      ∧ (minInt ≤ w.playersOnline + joins.length - leaves.length
          ∧ w.playersOnline + joins.length - leaves.length ≤ maxInt →
         wrapInt (w.playersOnline + joins.length - leaves.length)
           = w.playersOnline + joins.length - leaves.length) :=
  ⟨run_joins_leaves config joins leaves hj hl w hw, fun h => wrapInt_of_fits _ h⟩

theorem join_leave_counter_witness :
    readFactorioLogFile { plainConfig with sendJoinLeave := true }
        ["2024-05-01 10:00:00 [JOIN] bob joined the game".toList,
         "2024-05-01 10:00:05 [JOIN] eve joined the game".toList,
         "2024-05-01 10:07:00 [LEAVE] bob left the game".toList] initialWorld
      = some { initialWorld with
          playersOnline := 1,
          messagesToDiscord :=
            [":green_circle: | `bob` joined the game!".toList,
             ":green_circle: | `eve` joined the game!".toList,
             ":red_circle: | `bob` left the game!".toList] } :=
  (join_leave_counter { plainConfig with sendJoinLeave := true }
    [("2024-05-01 10:00:00 ".toList, "bob joined the game".toList),
     ("2024-05-01 10:00:05 ".toList, "eve joined the game".toList)]
    [("2024-05-01 10:07:00 ".toList, "bob left the game".toList)]
    initialWorld (by decide) (by decide) (by decide)).1

/-- C3 as stated fails at the upper end of `int`: one `JOIN` line takes the
counter from `2^63 - 1` to `-2^63`, not to `2^63`. -/
theorem join_counter_overflow :
    (readFactorioLogFile plainConfig ["[JOIN] bob joined the game".toList]
        { initialWorld with playersOnline := 9223372036854775807 }).map World.playersOnline
      = some (-9223372036854775808)
    ∧ (-9223372036854775808 : Int) ≠ 9223372036854775807 + 1 - 0 := by
  constructor
  · rfl
  · decide

/-! ## Player deaths -/

theorem takeWhile_field (g : GoString) (stop : Char) (rest : GoString)
    (hg : ∀ c ∈ g, isFieldRune c = true) (hstop : isFieldRune stop = false) :
    (g ++ stop :: rest).takeWhile isFieldRune = g := by
  rw [List.takeWhile_append_of_pos hg, List.takeWhile_cons_of_neg (by simp [hstop])]
  simp

theorem reDied_skip (g rest : GoString) (hg : ∀ c ∈ g, isFieldRune c = true) :
    reDied (g ++ rest) = reDied rest := by
  induction g with
  | nil => rfl
  | cons c cs ih =>
    have hc : isFieldRune c = true := hg c (List.mem_cons_self c cs)
    have hne : c ≠ ':' := by
      intro h; rw [h] at hc; revert hc; decide
    rw [List.cons_append, reDied, if_neg hne]
    exact ih (fun d hd => hg d (List.mem_cons_of_mem c hd))

theorem reDied_field (g : GoString) (stop : Char) (rest : GoString)
    (hg : ∀ c ∈ g, isFieldRune c = true) (hstop : isFieldRune stop = false) :
    reDied (':' :: (g ++ stop :: rest)) = [':' :: g, g] :: reDied (stop :: rest) := by
  rw [reDied, if_pos rfl, takeWhile_field g stop rest hg hstop, reDied_skip g _ hg]

theorem reDied_line (y : GoString) :
    reDied ("[FactoriGOChatBot]: [PLAYER_DIED".toList ++ y)
      = [": ".toList, " ".toList] :: reDied y := rfl

theorem addText_eq (c : GoString) :
    (if c = "cargo-wagon".toList ∨ c = "artillery-wagon".toList ∨ c = "fluid-wagon".toList then
        " (hahaha! how the hell did you do that?!?!)".toList
      else if c = "locomotive".toList ∨ c = "cargo-wagon".toList ∨ c = "artillery-wagon".toList
          ∨ c = "fluid-wagon".toList then " (hahaha!)".toList
      else [])
    = deathSuffix c := by
  unfold deathSuffix
  by_cases h1 : c = "locomotive".toList
  · subst h1; decide
  · by_cases h2 : c = "cargo-wagon".toList ∨ c = "artillery-wagon".toList ∨ c = "fluid-wagon".toList
    · rw [if_pos h2, if_neg h1, if_pos h2]
    · have h3 : ¬ (c = "locomotive".toList ∨ c = "cargo-wagon".toList
          ∨ c = "artillery-wagon".toList ∨ c = "fluid-wagon".toList) := by
        rintro (h | h)
        · exact h1 h
        · exact h2 h
      rw [if_neg h2, if_neg h3, if_neg h1, if_neg h2]

theorem diedLine_shape (y : GoString) :
    "[FactoriGOChatBot]: [PLAYER_DIED:".toList ++ y
      = "[FactoriGOChatBot]: [PLAYER_DIED".toList ++ ':' :: y := rfl

theorem reTag_died (y : GoString) :
    reTag ("[FactoriGOChatBot]: [PLAYER_DIED".toList ++ y)
      = ["[FactoriGOChatBot]".toList, "FactoriGOChatBot".toList] := rfl

theorem reSubTag_died (y : GoString) :
    reSubTag ("[FactoriGOChatBot]: [PLAYER_DIED".toList ++ ':' :: y)
      = [" [PLAYER_DIED:".toList, "PLAYER_DIED".toList] := rfl

theorem parse_died (config : botConfig) (w : World) (y : GoString) :
    parseAndFormatMessage config ("[FactoriGOChatBot]: [PLAYER_DIED".toList ++ ':' :: y) w
      = parseModLogEntries config ("[FactoriGOChatBot]: [PLAYER_DIED".toList ++ ':' :: y) w := by
  unfold parseAndFormatMessage
  simp only [reTag_died, List.length_cons, List.length_nil, List.getElem?_cons_succ,
    List.getElem?_cons_zero, if_true]
  rw [if_neg (by omega : ¬ (0 + 1 + 1 < 2))]

/-- C7, amended: when the fields `p`, `c`, `k`, `t` hold only letters, digits,
underscores, spaces and hyphens (the class `[\w -]` of the pattern), the line
`[FactoriGOChatBot]: [PLAYER_DIED:p:c]` gives `deathMessage p c`, that is the
player, the cause (`unknown` for an empty one) and the remark of `deathSuffix`;
the line `[PLAYER_DIED:p]` gives the unknown-cause text; and the line
`[PLAYER_DIED:p:c:k:t]` gives `deathMessage p c` followed by
` (k times out of t deaths)`. Each sends the presence update `p dying`. -/
theorem player_died_message (config : botConfig) (w : World) (p c k t : GoString)
    (hp : ∀ x ∈ p, isFieldRune x = true) (hc : ∀ x ∈ c, isFieldRune x = true)
    (hk : ∀ x ∈ k, isFieldRune x = true) (ht : ∀ x ∈ t, isFieldRune x = true) :
    parseAndFormatMessage config
        ("[FactoriGOChatBot]: [PLAYER_DIED:".toList ++ p ++ ":".toList ++ c ++ "]".toList) w
      = some (deathMessage p c,
          updateDiscordStatus .ActivityTypeWatching (p ++ " dying".toList) w)
    ∧ parseAndFormatMessage config
        ("[FactoriGOChatBot]: [PLAYER_DIED:".toList ++ p ++ "]".toList) w
      = some (":skull: | Player died: `".toList ++ p ++ "` (unknown cause)".toList,
          updateDiscordStatus .ActivityTypeWatching (p ++ " dying".toList) w)
    ∧ parseAndFormatMessage config
        ("[FactoriGOChatBot]: [PLAYER_DIED:".toList ++ p ++ ":".toList ++ c ++ ":".toList ++ k
          ++ ":".toList ++ t ++ "]".toList) w
      = some (deathMessage p c ++ " (".toList ++ k ++ " times out of ".toList ++ t
            ++ " deaths)".toList,
          updateDiscordStatus .ActivityTypeWatching (p ++ " dying".toList) w) := by
  have ecolon : isFieldRune ':' = false := by decide
  have eclose : isFieldRune ']' = false := by decide
  have e1 : ("PLAYER_DIED".toList = "RESEARCH_STARTED".toList) = False := by decide
  have e2 : ("PLAYER_DIED".toList = "RESEARCH_FINISHED".toList) = False := by decide
  have hend : reDied [']'] = [] := rfl
  refine ⟨?_, ?_, ?_⟩
  · have hline : "[FactoriGOChatBot]: [PLAYER_DIED:".toList ++ p ++ ":".toList ++ c ++ "]".toList
        = "[FactoriGOChatBot]: [PLAYER_DIED".toList ++ ':' :: (p ++ ':' :: (c ++ ']' :: [])) := by
      rw [diedLine_shape]
      simp [List.append_assoc]
    rw [hline, parse_died]
    unfold parseModLogEntries
    simp only [reSubTag_died, reDied_line, reDied_field p ':' _ hp ecolon,
      reDied_field c ']' _ hc eclose, hend, List.length_cons, List.length_nil,
      List.getElem?_cons_succ, List.getElem?_cons_zero, e1, e2, if_false, if_true, addText_eq]
    rw [if_neg (by omega : ¬ (0 + 1 + 1 < 1))]
    simp [deathMessage, shownCause]
  · have hline : "[FactoriGOChatBot]: [PLAYER_DIED:".toList ++ p ++ "]".toList
        = "[FactoriGOChatBot]: [PLAYER_DIED".toList ++ ':' :: (p ++ ']' :: []) := by
      rw [diedLine_shape]
      simp [List.append_assoc]
    rw [hline, parse_died]
    unfold parseModLogEntries
    simp only [reSubTag_died, reDied_line, reDied_field p ']' _ hp eclose, hend,
      List.length_cons, List.length_nil,
      List.getElem?_cons_succ, List.getElem?_cons_zero, e1, e2, if_false, if_true]
    rw [if_neg (by omega : ¬ (0 + 1 + 1 < 1))]
  · have hline : "[FactoriGOChatBot]: [PLAYER_DIED:".toList ++ p ++ ":".toList ++ c ++ ":".toList
          ++ k ++ ":".toList ++ t ++ "]".toList
        = "[FactoriGOChatBot]: [PLAYER_DIED".toList
            ++ ':' :: (p ++ ':' :: (c ++ ':' :: (k ++ ':' :: (t ++ ']' :: [])))) := by
      rw [diedLine_shape]
      simp [List.append_assoc]
    rw [hline, parse_died]
    unfold parseModLogEntries
    simp only [reSubTag_died, reDied_line, reDied_field p ':' _ hp ecolon,
      reDied_field c ':' _ hc ecolon, reDied_field k ':' _ hk ecolon,
      reDied_field t ']' _ ht eclose, hend, List.length_cons, List.length_nil,
      List.getElem?_cons_succ, List.getElem?_cons_zero, e1, e2, if_false, if_true, addText_eq]
    rw [if_neg (by omega : ¬ (0 + 1 + 1 < 1))]
    simp [deathMessage, shownCause]

theorem player_died_message_witness :
    parseAndFormatMessage plainConfig
        "[FactoriGOChatBot]: [PLAYER_DIED:bob:cargo-wagon]".toList initialWorld
      = some (":skull: | Player died: `bob`, cause: `cargo-wagon` (hahaha! how the hell did you do that?!?!)".toList,
          updateDiscordStatus .ActivityTypeWatching "bob dying".toList initialWorld)
    ∧ parseAndFormatMessage plainConfig
        "[FactoriGOChatBot]: [PLAYER_DIED:bob]".toList initialWorld
      = some (":skull: | Player died: `bob` (unknown cause)".toList,
          updateDiscordStatus .ActivityTypeWatching "bob dying".toList initialWorld)
    ∧ parseAndFormatMessage plainConfig
        "[FactoriGOChatBot]: [PLAYER_DIED:bob:cargo-wagon:3:14]".toList initialWorld
      = some (":skull: | Player died: `bob`, cause: `cargo-wagon` (hahaha! how the hell did you do that?!?!) (3 times out of 14 deaths)".toList,
          updateDiscordStatus .ActivityTypeWatching "bob dying".toList initialWorld) :=
  player_died_message plainConfig initialWorld "bob".toList "cargo-wagon".toList "3".toList
    "14".toList (by decide) (by decide) (by decide) (by decide)

/-- C7 as stated fails for a player name with a rune outside `[\w -]`: of the
player `a.b` the announcement keeps `a`. -/
theorem player_died_name_cut :
    parseAndFormatMessage plainConfig
        "[FactoriGOChatBot]: [PLAYER_DIED:a.b:locomotive]".toList initialWorld
      = some (":skull: | Player died: `a`, cause: `locomotive` (hahaha!)".toList,
          updateDiscordStatus .ActivityTypeWatching "a dying".toList initialWorld)
    ∧ ":skull: | Player died: `a`, cause: `locomotive` (hahaha!)".toList
        ≠ deathMessage "a.b".toList "locomotive".toList := by
  constructor
  · rfl
  · decide

/-! ## What the tag pattern finds -/

theorem findLeftmost_some {α : Type} (f : GoString → Option α) (m : GoString) (r : α)
    (h : findLeftmost f m = some r) : ∃ pre suf, m = pre ++ suf ∧ f suf = some r := by
  induction m with
  | nil => exact ⟨[], [], rfl, h⟩
  | cons c cs ih =>
    rw [findLeftmost] at h
    cases hf : f (c :: cs) with
    | some r2 =>
      rw [hf] at h
      exact ⟨[], c :: cs, rfl, hf.trans h⟩
    | none =>
      rw [hf] at h
      obtain ⟨pre, suf, hm, hs⟩ := ih h
      exact ⟨c :: pre, suf, by rw [hm]; rfl, hs⟩

theorem findLeftmost_none {α : Type} (f : GoString → Option α) (m : GoString)
    (h : findLeftmost f m = none) : ∀ pre suf, m = pre ++ suf → f suf = none := by
  induction m with
  | nil =>
    intro pre suf hm
    have hsuf : suf = [] := (List.append_eq_nil.mp hm.symm).2
    rw [hsuf]
    exact h
  | cons c cs ih =>
    rw [findLeftmost] at h
    cases hf : f (c :: cs) with
    | some r2 => rw [hf] at h; exact absurd h (by simp)
    | none =>
      rw [hf] at h
      intro pre suf hm
      cases pre with
      | nil =>
        rw [List.nil_append] at hm
        rw [← hm]
        exact hf
      | cons d ds =>
        rw [List.cons_append] at hm
        exact ih h ds suf (List.cons.inj hm).2

theorem runThen_some (p : Char → Bool) (stop : Char) (s g : GoString)
    (h : runThen p stop s = some g) :
    ∃ post, s = g ++ stop :: post ∧ ∀ c ∈ g, p c = true := by
  induction s generalizing g with
  | nil => rw [runThen] at h; exact absurd h (by simp)
  | cons c cs ih =>
    rw [runThen] at h
    by_cases hp : p c = true
    · rw [if_pos hp] at h
      cases hr : runThen p stop cs with
      | none => rw [hr] at h; exact absurd h (by simp)
      | some g2 =>
        rw [hr] at h
        have hg : c :: g2 = g := Option.some.inj h
        obtain ⟨post, hcs, hall⟩ := ih g2 hr
        refine ⟨post, ?_, ?_⟩
        · rw [← hg, hcs]; rfl
        · intro d hd
          rw [← hg] at hd
          rcases List.mem_cons.mp hd with e | e
          · rw [e]; exact hp
          · exact hall d e
    · rw [if_neg hp] at h
      by_cases hs : c = stop
      · rw [if_pos hs] at h
        have hg : [] = g := Option.some.inj h
        exact ⟨cs, by rw [← hg, hs]; rfl, by rw [← hg]; simp⟩
      · rw [if_neg hs] at h; exact absurd h (by simp)

/-- The tag a line has is a bracketed word of the line. -/
theorem lineTag_some (m g : GoString) (h : lineTag m = some g) :
    ∃ pre post, m = pre ++ '[' :: (g ++ ']' :: post) ∧ ∀ c ∈ g, isWordRune c = true := by
  obtain ⟨pre, suf, hm, hs⟩ := findLeftmost_some tagAt m g h
  cases suf with
  | nil => exact absurd hs (by simp [tagAt])
  | cons c r =>
    rw [tagAt] at hs
    by_cases hc : c = '['
    · rw [if_pos hc] at hs
      obtain ⟨post, hr, hall⟩ := runThen_some isWordRune ']' r g hs
      exact ⟨pre, post, by rw [hm, hc, hr], hall⟩
    · rw [if_neg hc] at hs; exact absurd hs (by simp)

/-- A line without a tag holds no bracketed word at all. -/
theorem lineTag_none (m : GoString) (h : lineTag m = none) (pre g post : GoString)
    (hg : ∀ c ∈ g, isWordRune c = true) : m ≠ pre ++ '[' :: (g ++ ']' :: post) := by
  intro hm
  have hf := findLeftmost_none tagAt m h pre _ hm
  rw [tagAt, if_pos rfl, runThen_run isWordRune ']' g post hg (by decide)] at hf
  exact absurd hf (by simp)

theorem lazyUntilColon_some (s g : GoString) (h : lazyUntilColon s = some g) :
    ∃ post, s = g ++ ':' :: post ∧ ∀ c ∈ g, c ≠ ':' ∧ isDotRune c = true := by
  induction s generalizing g with
  | nil => rw [lazyUntilColon] at h; exact absurd h (by simp)
  | cons c cs ih =>
    rw [lazyUntilColon] at h
    by_cases hc : c = ':'
    · rw [if_pos hc] at h
      have hg : [] = g := Option.some.inj h
      exact ⟨cs, by rw [← hg, hc]; rfl, by rw [← hg]; simp⟩
    · rw [if_neg hc] at h
      by_cases hd : isDotRune c = true
      · rw [if_pos hd] at h
        cases hr : lazyUntilColon cs with
        | none => rw [hr] at h; exact absurd h (by simp)
        | some g2 =>
          rw [hr] at h
          have hg : c :: g2 = g := Option.some.inj h
          obtain ⟨post, hcs, hall⟩ := ih g2 hr
          refine ⟨post, by rw [← hg, hcs]; rfl, ?_⟩
          intro d hdm
          rw [← hg] at hdm
          rcases List.mem_cons.mp hdm with e | e
          · rw [e]; exact ⟨hc, hd⟩
          · exact hall d e
      · rw [if_neg hd] at h; exact absurd h (by simp)

theorem lazyUntilColon_isSome (g post : GoString) (hg : ∀ c ∈ g, isDotRune c = true) :
    (lazyUntilColon (g ++ ':' :: post)).isSome = true := by
  induction g with
  | nil => simp [lazyUntilColon]
  | cons c cs ih =>
    have hc : isDotRune c = true := hg c (List.mem_cons_self c cs)
    have hcs := ih (fun d hd => hg d (List.mem_cons_of_mem c hd))
    rw [List.cons_append, lazyUntilColon]
    by_cases h : c = ':'
    · rw [if_pos h]; rfl
    · rw [if_neg h, if_pos hc]
      cases hr : lazyUntilColon (cs ++ ':' :: post) with
      | none => rw [hr] at hcs; exact absurd hcs (by simp)
      | some g2 => rfl

/-- The sub-tag a line has stands between a ` [` and the first colon after it,
on one line. -/
theorem lineSubTag_some (m g : GoString) (h : lineSubTag m = some g) :
    ∃ pre post, m = pre ++ ' ' :: '[' :: (g ++ ':' :: post)
      ∧ ∀ c ∈ g, c ≠ ':' ∧ c ≠ '\n' := by
  obtain ⟨pre, suf, hm, hs⟩ := findLeftmost_some subTagAt m g h
  match suf, hs with
  | [], hs => exact absurd hs (by simp [subTagAt])
  | [_], hs => exact absurd hs (by simp [subTagAt])
  | c :: d :: r, hs =>
    rw [subTagAt] at hs
    by_cases hcd : c = ' ' ∧ d = '['
    · rw [if_pos hcd] at hs
      obtain ⟨post, hr, hall⟩ := lazyUntilColon_some r g hs
      refine ⟨pre, post, by rw [hm, hcd.1, hcd.2, hr], ?_⟩
      intro x hx
      refine ⟨(hall x hx).1, ?_⟩
      intro e
      have hdot := (hall x hx).2
      rw [e] at hdot
      exact absurd hdot (by decide)
    · rw [if_neg hcd] at hs; exact absurd hs (by simp)

/-- A line without a sub-tag holds no ` [` that a colon follows on the same
line. -/
theorem lineSubTag_none (m : GoString) (h : lineSubTag m = none) (pre g post : GoString)
    (hg : '\n' ∉ g) : m ≠ pre ++ ' ' :: '[' :: (g ++ ':' :: post) := by
  intro hm
  have hf := findLeftmost_none subTagAt m h pre _ hm
  have hdot : ∀ c ∈ g, isDotRune c = true := by
    intro c hc
    have hne : c ≠ '\n' := fun e => hg (e ▸ hc)
    have hn : c.toNat ≠ 10 := by
      intro e
      apply hne
      apply Char.ext
      apply UInt32.ext
      exact e
    simp [isDotRune, hn]
  have hsome := lazyUntilColon_isSome g post hdot
  rw [subTagAt, if_pos ⟨rfl, rfl⟩] at hf
  rw [hf] at hsome
  exact absurd hsome (by simp)

/-! ## Lines without a known tag -/

theorem parseModLogEntries_unknown (config : botConfig) (message : GoString) (w : World)
    (h : ∀ s, lineSubTag message = some s → s ∉ knownSubTags) :
    parseModLogEntries config message w = some ([], w) := by
  unfold parseModLogEntries reSubTag
  unfold lineSubTag at h
  cases hs : findLeftmost subTagAt message with
  | none => simp
  | some s =>
    have hk := h s hs
    simp only [knownSubTags, List.mem_cons, List.mem_singleton, not_or, List.not_mem_nil,
      or_false] at hk
    obtain ⟨h1, h2, h3, h4⟩ := hk
    simp only [List.length_cons, List.length_nil, List.getElem?_cons_succ,
      List.getElem?_cons_zero]
    rw [if_neg (by omega : ¬ (0 + 1 + 1 < 1)), if_neg h1, if_neg h2, if_neg h3, if_neg h4]

/-- C8: a line whose tag (the first match of the tag pattern) is missing or
is none of `FactoriGOChatBot`, `CHAT`, `JOIN`, `LEAVE`, and a `FactoriGOChatBot`
line whose sub-tag is missing or is none of `RESEARCH_STARTED`,
`RESEARCH_FINISHED`, `PLAYER_DIED`, `ROCKET_LAUNCHED`, makes
`parseAndFormatMessage` return the empty string and leave the whole state as it
was: no presence update is sent and `playersOnline` keeps its value. -/
theorem unrecognized_line_is_dropped (config : botConfig) (message : GoString) (w : World)
    (h : (∀ t, lineTag message = some t → t ∉ knownTags)
      ∨ (lineTag message = some "FactoriGOChatBot".toList
          ∧ ∀ s, lineSubTag message = some s → s ∉ knownSubTags)) :
    parseAndFormatMessage config message w = some ([], w) := by
  unfold parseAndFormatMessage reTag
  unfold lineTag at h
  cases ht : findLeftmost tagAt message with
  | none => simp
  | some t =>
    simp only [List.length_cons, List.length_nil, List.getElem?_cons_succ,
      List.getElem?_cons_zero]
    rw [if_neg (by omega : ¬ (0 + 1 + 1 < 2))]
    rcases h with h | ⟨h, hsub⟩
    · have hk := h t ht
      simp only [knownTags, List.mem_cons, List.mem_singleton, not_or, List.not_mem_nil,
        or_false] at hk
      obtain ⟨h1, h2, h3, h4⟩ := hk
      rw [if_neg h1, if_neg h2, if_neg h3, if_neg h4]
    · rw [ht] at h
      have ht2 : t = "FactoriGOChatBot".toList := Option.some.inj h
      rw [if_pos ht2]
      exact parseModLogEntries_unknown config message w hsub

theorem unrecognized_line_is_dropped_witness :
    parseAndFormatMessage plainConfig
        "2024-05-01 10:00:00 [COMMAND] bob (command): /help".toList initialWorld
        = some ([], initialWorld)
      ∧ parseAndFormatMessage plainConfig
        "[FactoriGOChatBot]: [CHUNK_CHARTED:3]".toList initialWorld
        = some ([], initialWorld) :=
  ⟨unrecognized_line_is_dropped plainConfig _ initialWorld (Or.inl (by decide)),
   unrecognized_line_is_dropped plainConfig _ initialWorld (Or.inr (by decide))⟩

/-! ## Multi-line chat messages -/

theorem strings_Split_ne_nil (sep : Char) (s : GoString) : strings_Split sep s ≠ [] := by
  induction s with
  | nil => simp [strings_Split]
  | cons c cs ih =>
    unfold strings_Split
    split
    · simp
    · split <;> simp

theorem strings_Join_cons_split (sep c : Char) (seg : GoString) (segs : List GoString) :
    strings_Join sep ((c :: seg) :: segs) = c :: strings_Join sep (seg :: segs) := by
  cases segs <;> simp [strings_Join]

theorem strings_Join_Split (sep : Char) (s : GoString) :
    strings_Join sep (strings_Split sep s) = s := by
  induction s with
  | nil => simp [strings_Split, strings_Join]
  | cons c cs ih =>
    unfold strings_Split
    split
    · rename_i h
      cases hs : strings_Split sep cs with
      | nil => exact absurd hs (strings_Split_ne_nil sep cs)
      | cons seg segs =>
        rw [hs] at ih
        simp [strings_Join, ih, h]
    · cases hs : strings_Split sep cs with
      | nil => exact absurd hs (strings_Split_ne_nil sep cs)
      | cons seg segs =>
        rw [hs] at ih
        simp only [strings_Join_cons_split, ih]

theorem strings_Split_length (sep : Char) (s : GoString) :
    (strings_Split sep s).length = s.count sep + 1 := by
  induction s with
  | nil => simp [strings_Split]
  | cons c cs ih =>
    unfold strings_Split
    split
    · rename_i h
      simp [ih, h]
    · rename_i h
      cases hs : strings_Split sep cs with
      | nil => exact absurd hs (strings_Split_ne_nil sep cs)
      | cons seg segs =>
        rw [hs] at ih
        have hne : (c == sep) = false := by simpa using h
        simp only [List.length_cons, List.count_cons, hne] at ih ⊢
        simpa using ih

theorem strings_Split_no_sep (sep : Char) (s : GoString) :
    ∀ seg ∈ strings_Split sep s, sep ∉ seg := by
  induction s with
  | nil => simp [strings_Split]
  | cons c cs ih =>
    unfold strings_Split
    split
    · intro seg hseg
      rcases List.mem_cons.mp hseg with h | h
      · simp [h]
      · exact ih seg h
    · rename_i h
      cases hs : strings_Split sep cs with
      | nil => exact absurd hs (strings_Split_ne_nil sep cs)
      | cons seg0 segs =>
        rw [hs] at ih
        intro seg hseg
        rcases List.mem_cons.mp hseg with h1 | h1
        · rw [h1]
          intro hmem
          rcases List.mem_cons.mp hmem with h2 | h2
          · exact h h2.symm
          · exact ih seg0 (List.mem_cons_self _ _) h2
        · exact ih seg (List.mem_cons_of_mem _ h1)

theorem forwardMessages_toFactorio (nick : GoString) (messages : List GoString) (w : World) :
    (forwardMessages nick messages w).messagesToFactorio
      = w.messagesToFactorio
          ++ messages.map (fun message => "[".toList ++ nick ++ "]: ".toList ++ message) := by
  induction messages generalizing w with
  | nil => simp [forwardMessages]
  | cons m ms ih =>
    rw [forwardMessages, ih]
    split <;> simp

/-- C9, amended: for a message that the handler accepts (not the bot's own, on
the configured channel, with member data whose nick is `memberNick`) and that
holds no emoji, the handler returns and has sent on `messagesToFactorio`, in
order, one message `[n]: segment` per segment of `parseDiscordMessage`, where
`n` is the nick or, when the nick is empty, the user name; the segments are one
more than the line feeds of the text, none holds a line feed, and joined by
line feeds they give the text back. -/
theorem multiline_chat_is_split (config : botConfig) (gomoji : Gomoji)
    (selfID authorID username memberNick channelID content : GoString) (w : World)
    (hauthor : authorID ≠ selfID) (hchannel : channelID = config.discordChannelId)
    (hemoji : gomoji.ContainsEmoji content = false) :
    (onReceiveDiscordMessage config gomoji selfID authorID username (some memberNick)
        channelID content w).map World.messagesToFactorio
      = some (w.messagesToFactorio
          ++ (parseDiscordMessage gomoji content).map
              (fun segment =>
                "[".toList ++ (if memberNick = [] then username else memberNick)
                  ++ "]: ".toList ++ segment))
    ∧ (parseDiscordMessage gomoji content).length = content.count '\n' + 1
    ∧ (∀ segment ∈ parseDiscordMessage gomoji content, '\n' ∉ segment)
    ∧ strings_Join '\n' (parseDiscordMessage gomoji content) = content := by
  have hparse : parseDiscordMessage gomoji content = strings_Split '\n' content := by
    simp [parseDiscordMessage, hemoji]
  refine ⟨?_, ?_, ?_, ?_⟩
  · unfold onReceiveDiscordMessage
    rw [if_neg hauthor, if_neg (not_not.mpr hchannel)]
    simp only [Option.map_some', forwardMessages_toFactorio]
    split <;> rfl
  · rw [hparse]; exact strings_Split_length '\n' content
  · rw [hparse]; exact strings_Split_no_sep '\n' content
  · rw [hparse]; exact strings_Join_Split '\n' content

theorem multiline_chat_is_split_witness :
    (onReceiveDiscordMessage plainConfig noEmoji "bot".toList "u1".toList "bob".toList
        (some []) [] "a\nb".toList initialWorld).map World.messagesToFactorio
      = some ["[bob]: a".toList, "[bob]: b".toList] :=
  (multiline_chat_is_split plainConfig noEmoji "bot".toList "u1".toList "bob".toList []
    [] "a\nb".toList initialWorld (by decide) rfl rfl).1

/-- C9 as stated fails: the text `a` + line feed + `b` holds no emoji and one
line feed, yet the handler sends nothing on `messagesToFactorio` when the
message comes from another channel than the configured one, and nothing when
it is the bot's own message. -/
theorem chat_outside_the_guards_is_not_forwarded :
    noEmoji.ContainsEmoji "a\nb".toList = false
      ∧ List.count '\n' "a\nb".toList = 1
      ∧ (onReceiveDiscordMessage { plainConfig with discordChannelId := "factorio".toList }
            noEmoji "bot".toList "u1".toList "bob".toList (some "Bob".toList)
            "general".toList "a\nb".toList initialWorld).map World.messagesToFactorio
          = some []
      ∧ (onReceiveDiscordMessage { plainConfig with discordChannelId := "factorio".toList }
            noEmoji "bot".toList "bot".toList "relay".toList (some "Relay".toList)
            "factorio".toList "a\nb".toList initialWorld).map World.messagesToFactorio
          = some [] := by
  refine ⟨rfl, by decide, rfl, rfl⟩

/-- A message without member data that passes both guards makes the handler
panic at `m.Member.Nick`, whatever its text. -/
theorem chat_without_member_panics (config : botConfig) (gomoji : Gomoji)
    (selfID authorID username channelID content : GoString) (w : World)
    (hauthor : authorID ≠ selfID) (hchannel : channelID = config.discordChannelId) :
    onReceiveDiscordMessage config gomoji selfID authorID username none channelID content w
      = none := by
  unfold onReceiveDiscordMessage
  rw [if_neg hauthor, if_neg (not_not.mpr hchannel)]

/-! ## Chat lines -/

theorem strings_Contains_iff (s substr : GoString) :
    strings_Contains s substr = true ↔ substr <:+: s := by
  induction s with
  | nil => simp [strings_Contains, List.isEmpty_iff]
  | cons c cs ih =>
    rw [strings_Contains, Bool.or_eq_true, ih, List.isPrefixOf_iff_prefix, List.infix_cons_iff]

theorem strings_HasPrefix_iff (s pre : GoString) :
    strings_HasPrefix s pre = true ↔ pre <+: s := by
  rw [strings_HasPrefix, List.isPrefixOf_iff_prefix]

theorem splitLastColonSpace_none (b : GoString) (h : ¬ [':', ' '] <:+: b) :
    splitLastColonSpace b = none := by
  induction b with
  | nil => rfl
  | cons c cs ih =>
    have hcs : ¬ [':', ' '] <:+: cs := fun hi => h (List.infix_cons hi)
    have hpre : [':', ' '].isPrefixOf (c :: cs) = false := by
      rw [Bool.eq_false_iff]
      intro hp
      exact h (List.isPrefixOf_iff_prefix.mp hp).isInfix
    rw [splitLastColonSpace, ih hcs, hpre]
    rfl

theorem splitLastColonSpace_last (s b : GoString) (h : ¬ [':', ' '] <:+: b) :
    splitLastColonSpace (s ++ ':' :: ' ' :: b) = some (s, b) := by
  induction s with
  | nil =>
    have hb : ¬ [':', ' '] <:+: (' ' :: b) := by
      intro hi
      rcases List.infix_cons_iff.mp hi with hp | hp
      · obtain ⟨t, ht⟩ := hp
        simp at ht
      · exact h hp
    rw [List.nil_append, splitLastColonSpace, splitLastColonSpace_none _ hb]
    simp
  | cons c cs ih =>
    rw [List.cons_append, splitLastColonSpace, ih]

theorem chatAt_ne (c : Char) (r : GoString) (h : c ≠ ']') : chatAt (c :: r) = none := by
  cases r <;> simp [chatAt, h]

theorem takeWhile_isDotRune (x : GoString) (h : '\n' ∉ x) : x.takeWhile isDotRune = x := by
  rw [List.takeWhile_eq_self_iff]
  intro c hc
  have hne : c ≠ '\n' := fun e => h (e ▸ hc)
  have hn : c.toNat ≠ 10 := by
    intro e
    apply hne
    apply Char.ext
    apply UInt32.ext
    exact e
  simp [isDotRune, hn]

theorem reChat_line (pre s b : GoString) (hpre : ∀ c ∈ pre, c ≠ '[' ∧ c ≠ ']')
    (hs : '\n' ∉ s) (hb : '\n' ∉ b) (hlast : ¬ ": ".toList <:+: b) :
    reChat (pre ++ "[CHAT] ".toList ++ s ++ ": ".toList ++ b)
      = [']' :: ' ' :: (s ++ ':' :: ' ' :: b), s, b] := by
  have hline : pre ++ "[CHAT] ".toList ++ s ++ ": ".toList ++ b
      = pre ++ ("[CHAT".toList ++ ']' :: ' ' :: (s ++ ':' :: ' ' :: b)) := by
    have e1 : "[CHAT] ".toList = "[CHAT".toList ++ [']', ' '] := rfl
    have e2 : ": ".toList = [':', ' '] := rfl
    rw [e1, e2]
    simp [List.append_assoc]
  have hno : '\n' ∉ s ++ ':' :: ' ' :: b := by
    simp only [List.mem_append, List.mem_cons, not_or]
    exact ⟨hs, by decide, by decide, hb⟩
  have hfind : findLeftmost chatAt ("[CHAT".toList ++ ']' :: ' ' :: (s ++ ':' :: ' ' :: b))
      = findLeftmost chatAt (']' :: ' ' :: (s ++ ':' :: ' ' :: b)) := rfl
  rw [reChat, hline, findLeftmost_skip chatAt pre _ (fun c hc r => chatAt_ne c r (hpre c hc).2),
    hfind, findLeftmost]
  simp only [chatAt, and_self, if_true, takeWhile_isDotRune _ hno,
    splitLastColonSpace_last s b hlast]

theorem isDotRune_false (c : Char) (h : isDotRune c = false) : c = '\n' := by
  have hn : c.toNat = 10 := by
    simpa [isDotRune] using h
  apply Char.ext
  apply UInt32.ext
  exact hn

theorem splitLastColonSpace_none_infix (x : GoString) (h : splitLastColonSpace x = none) :
    ¬ [':', ' '] <:+: x := by
  induction x with
  | nil => simp
  | cons c cs ih =>
    rw [splitLastColonSpace] at h
    cases hr : splitLastColonSpace cs with
    | some ab => rw [hr] at h; exact absurd h (by simp)
    | none =>
      rw [hr] at h
      by_cases hp : [':', ' '].isPrefixOf (c :: cs) = true
      · simp only [hp, if_true] at h
        exact absurd h (by simp)
      · intro hi
        rcases List.infix_cons_iff.mp hi with hpre | hin
        · exact hp (List.isPrefixOf_iff_prefix.mpr hpre)
        · exact ih hr hin

theorem splitLastColonSpace_some (x a b : GoString) (h : splitLastColonSpace x = some (a, b)) :
    x = a ++ ':' :: ' ' :: b ∧ ¬ [':', ' '] <:+: b := by
  induction x generalizing a with
  | nil => rw [splitLastColonSpace] at h; exact absurd h (by simp)
  | cons c cs ih =>
    rw [splitLastColonSpace] at h
    cases hr : splitLastColonSpace cs with
    | some ab =>
      obtain ⟨a2, b2⟩ := ab
      rw [hr] at h
      have hab : (c :: a2, b2) = (a, b) := Option.some.inj h
      have ha : c :: a2 = a := congrArg Prod.fst hab
      have hb : b2 = b := congrArg Prod.snd hab
      rw [hb] at hr
      obtain ⟨hcs, hno⟩ := ih a2 hr
      exact ⟨by rw [← ha, hcs]; rfl, hno⟩
    | none =>
      rw [hr] at h
      by_cases hp : [':', ' '].isPrefixOf (c :: cs) = true
      · simp only [hp, if_true] at h
        have hab : (([] : GoString), cs.drop 1) = (a, b) := Option.some.inj h
        have ha : [] = a := congrArg Prod.fst hab
        have hb : cs.drop 1 = b := congrArg Prod.snd hab
        obtain ⟨t, ht⟩ := List.isPrefixOf_iff_prefix.mp hp
        have hc : c = ':' := by
          have := congrArg List.head? ht
          simpa using this.symm
        have hcs : cs = ' ' :: t := by
          have := congrArg List.tail ht
          simpa using this.symm
        have hbt : b = t := by rw [← hb, hcs]; rfl
        refine ⟨by rw [← ha, hc, hcs, hbt]; rfl, ?_⟩
        intro hi
        apply splitLastColonSpace_none_infix cs hr
        rw [hcs, ← hbt]
        exact List.infix_cons hi
      · simp only [hp] at h
        exact absurd h (by simp)

/-- What the chat pattern extracts: the line holds `] `, the speaker, `: ` and the
body in a row; the body holds no `: ` and neither holds a line feed; and the
body ends where the line ends. -/
theorem reChat_extracts (line whole s b : GoString) (h : reChat line = [whole, s, b]) :
    ∃ pre post, line = pre ++ ']' :: ' ' :: (s ++ ':' :: ' ' :: (b ++ post))
      ∧ ¬ ": ".toList <:+: b ∧ '\n' ∉ s ∧ '\n' ∉ b
      ∧ (post = [] ∨ post.head? = some '\n') := by
  unfold reChat at h
  cases hf : findLeftmost chatAt line with
  | none => rw [hf] at h; exact absurd h (by simp)
  | some ab =>
    obtain ⟨a2, b2⟩ := ab
    rw [hf] at h
    have hs : a2 = s := by
      have := congrArg (fun l => l[1]?) h
      simpa using this
    have hb : b2 = b := by
      have := congrArg (fun l => l[2]?) h
      simpa using this
    rw [hs, hb] at hf
    obtain ⟨pre, suf, hline, hsuf⟩ := findLeftmost_some chatAt line (s, b) hf
    match suf, hsuf with
    | [], hsuf => exact absurd hsuf (by simp [chatAt])
    | [_], hsuf => exact absurd hsuf (by simp [chatAt])
    | c :: d :: r, hsuf =>
      rw [chatAt] at hsuf
      by_cases hcd : c = ']' ∧ d = ' '
      · rw [if_pos hcd] at hsuf
        obtain ⟨htake, hno⟩ := splitLastColonSpace_some _ s b hsuf
        have hall : ∀ x ∈ s ++ ':' :: ' ' :: b, isDotRune x = true := by
          intro x hx
          rw [← htake] at hx
          exact List.mem_takeWhile_imp hx
        have hnl : ∀ x ∈ s ++ ':' :: ' ' :: b, x ≠ '\n' := by
          intro x hx e
          have := hall x hx
          rw [e] at this
          exact absurd this (by decide)
        have hr : r = (s ++ ':' :: ' ' :: b) ++ r.dropWhile isDotRune := by
          rw [← htake]
          exact (List.takeWhile_append_dropWhile isDotRune r).symm
        refine ⟨pre, r.dropWhile isDotRune, ?_, hno, ?_, ?_, ?_⟩
        · rw [hline, hcd.1, hcd.2]
          conv_lhs => rw [hr]
          simp [List.append_assoc]
        · intro hx
          exact hnl '\n' (List.mem_append_left _ hx) rfl
        · intro hx
          exact hnl '\n' (List.mem_append_right _ (List.mem_cons_of_mem _ (List.mem_cons_of_mem _ hx))) rfl
        · cases hd : r.dropWhile isDotRune with
          | nil => exact Or.inl rfl
          | cons x xs =>
            right
            have hnot := List.head?_dropWhile_not isDotRune r
            rw [hd] at hnot
            simp only [List.head?_cons] at hnot
            have hx : isDotRune x = false := by
              simpa using hnot
            rw [isDotRune_false x hx]
            rfl
      · rw [if_neg hcd] at hsuf; exact absurd hsuf (by simp)

theorem parse_chat_extracted (config : botConfig) (w : World) (line whole s b : GoString)
    (htag : lineTag line = some "CHAT".toList) (hchat : reChat line = [whole, s, b]) :
    parseAndFormatMessage config line w = some (chatAnnouncement config s b, w) := by
  have hre : reTag line = ['[' :: "CHAT".toList ++ [']'], "CHAT".toList] := by
    unfold lineTag at htag
    rw [reTag, htag]
  have e1 : ("CHAT".toList = "FactoriGOChatBot".toList) = False := by decide
  unfold parseAndFormatMessage chatAnnouncement
  simp only [hre, hchat, List.length_cons, List.length_nil,
    List.getElem?_cons_succ, List.getElem?_cons_zero, e1, if_false, if_true]
  rw [if_neg (by omega : ¬ (0 + 1 + 1 < 2))]
  by_cases hgps : "[gps=".toList <:+: b
  · rw [if_pos ((strings_Contains_iff b _).mpr hgps), if_pos hgps]
    cases config.sendGPSPing <;> simp
  · rw [if_neg (fun h => hgps ((strings_Contains_iff b _).mp h)), if_neg hgps]
    by_cases hecho : config.achievementMode = true ∧ "<server>: ".toList <+: s
    · rw [if_pos ⟨hecho.1, (strings_HasPrefix_iff s _).mpr hecho.2⟩, if_pos hecho]
    · rw [if_neg (fun h => hecho ⟨h.1, (strings_HasPrefix_iff s _).mp h.2⟩), if_neg hecho]

/-- C10: for every line whose tag is `CHAT` and of which the chat pattern
extracts the speaker `s` and the body `b`, `parseAndFormatMessage` leaves the
state alone and returns `chatAnnouncement`: when `b` contains `[gps=`, the text
`:map: | s: b` if `sendGPSPing` is set and the empty string otherwise; when `b`
does not contain `[gps=`, the text `:speech_left: | s: b` whatever `sendGPSPing`
is, unless the line is a server echo in achievement mode. The body is the text
after the last `: ` of the line and the speaker the text between the first `] `
and that `: `. -/
theorem chat_gps_gating (config : botConfig) (w : World) (line whole s b : GoString)
    (htag : lineTag line = some "CHAT".toList) (hchat : reChat line = [whole, s, b]) :
    parseAndFormatMessage config line w = some (chatAnnouncement config s b, w)
      ∧ ∃ pre post, line = pre ++ ']' :: ' ' :: (s ++ ':' :: ' ' :: (b ++ post))
          ∧ ¬ ": ".toList <:+: b ∧ '\n' ∉ s ∧ '\n' ∉ b
          ∧ (post = [] ∨ post.head? = some '\n') :=
  ⟨parse_chat_extracted config w line whole s b htag hchat, reChat_extracts line whole s b hchat⟩

theorem chat_gps_gating_witness :
    parseAndFormatMessage { plainConfig with sendGPSPing := true }
        "2024-05-01 10:00:00 [CHAT] bob: base at [gps=12,-7]".toList initialWorld
        = some (":map: | `bob`: base at [gps=12,-7]".toList, initialWorld)
      ∧ parseAndFormatMessage plainConfig
        "2024-05-01 10:00:00 [CHAT] bob: base at [gps=12,-7]".toList initialWorld
        = some ([], initialWorld)
      ∧ parseAndFormatMessage plainConfig
        "2024-05-01 10:00:09 [CHAT] eve: on my way".toList initialWorld
        = some (":speech_left: | `eve`: on my way".toList, initialWorld) :=
  ⟨(chat_gps_gating { plainConfig with sendGPSPing := true } initialWorld
      "2024-05-01 10:00:00 [CHAT] bob: base at [gps=12,-7]".toList
      "] bob: base at [gps=12,-7]".toList "bob".toList "base at [gps=12,-7]".toList rfl rfl).1,
   (chat_gps_gating plainConfig initialWorld
      "2024-05-01 10:00:00 [CHAT] bob: base at [gps=12,-7]".toList
      "] bob: base at [gps=12,-7]".toList "bob".toList "base at [gps=12,-7]".toList rfl rfl).1,
   (chat_gps_gating plainConfig initialWorld
      "2024-05-01 10:00:09 [CHAT] eve: on my way".toList
      "] eve: on my way".toList "eve".toList "on my way".toList rfl rfl).1⟩

/-- On a line `<stamp>[CHAT] s: b` (no bracket in the stamp, no line feed in `s`
or `b`, no `: ` in `b`) the tag is `CHAT`, the pattern extracts `s` and `b`, and
the answer is `chatAnnouncement`. -/
theorem chat_line_gps_gating (config : botConfig) (w : World) (pre s b : GoString)
    (hpre : ∀ c ∈ pre, c ≠ '[' ∧ c ≠ ']') (hs : '\n' ∉ s) (hb : '\n' ∉ b)
    (hlast : ¬ ": ".toList <:+: b) :
    parseAndFormatMessage config (pre ++ "[CHAT] ".toList ++ s ++ ": ".toList ++ b) w
      = some (chatAnnouncement config s b, w) := by
  have htag : lineTag (pre ++ "[CHAT] ".toList ++ s ++ ": ".toList ++ b)
      = some "CHAT".toList := by
    unfold lineTag
    rw [List.append_assoc (pre ++ "[CHAT] ".toList), List.append_assoc (pre ++ "[CHAT] ".toList),
      List.append_assoc,
      findLeftmost_skip tagAt pre _ (fun c hc r => tagAt_ne c r (hpre c hc).1)]
    rfl
  exact parse_chat_extracted config w _ _ s b htag (reChat_line pre s b hpre hs hb hlast)

/-! ## The seed cache -/

theorem handleCommand_seed_cached (rconClient : RconClient) (command : GoString) (w : World)
    (h : w.seed ≠ []) :
    (handleCommand rconClient command w).seed = w.seed
      ∧ (handleCommand rconClient command w).rconExecuted.count "/seed".toList
          = w.rconExecuted.count "/seed".toList := by
  unfold handleCommand
  split
  · exact ⟨rfl, rfl⟩
  · split
    · simp [getSeedFromFactorio, h]
    · split
      · refine ⟨rfl, ?_⟩
        have hne : ("/evolution".toList == "/seed".toList) = false := by decide
        simp [List.count_append, List.count_cons, hne]
      · exact ⟨rfl, rfl⟩

theorem handleCommands_seed_cached (rconClient : RconClient) (later : List GoString) (w : World)
    (h : w.seed ≠ []) :
    (handleCommands rconClient later w).seed = w.seed
      ∧ (handleCommands rconClient later w).rconExecuted.count "/seed".toList
          = w.rconExecuted.count "/seed".toList := by
  induction later generalizing w with
  | nil => exact ⟨rfl, rfl⟩
  | cons c cs ih =>
    have h1 := handleCommand_seed_cached rconClient c w h
    have h2 := ih (handleCommand rconClient c w) (by rw [h1.1]; exact h)
    rw [handleCommands]
    exact ⟨h2.1.trans h1.1, h2.2.trans h1.2⟩

theorem handleCommand_seed_hit (rconClient : RconClient) (w : World) (h : w.seed ≠ []) :
    handleCommand rconClient "!seed".toList w
      = { w with messagesToDiscord := w.messagesToDiscord ++ [w.seed] } := by
  have e1 : ("!seed".toList = "!online".toList) = False := by decide
  simp only [handleCommand, e1, if_false, if_true, getSeedFromFactorio, ne_eq, h,
    not_false_eq_true]

/-- C6, amended: with an empty cache, when the console answers `/seed` with a
non-empty `s`, `!seed` replies `s`, stores it and has executed `/seed` once;
after any later commands the number of `/seed` executions is still one more than
before and a further `!seed` replies `s` with no other change of the state. When
the console fails, `!seed` replies `Unknown`, the cache stays empty and the next
`!seed` executes `/seed` again. -/
theorem seed_is_cached (rconClient : RconClient) (w : World) (hempty : w.seed = []) :
    (∀ s, rconClient w.rconExecuted "/seed".toList = some s → s ≠ [] →
      handleCommand rconClient "!seed".toList w
          = { w with
              seed := s,
              rconExecuted := w.rconExecuted ++ ["/seed".toList],
              messagesToDiscord := w.messagesToDiscord ++ [s] }
        ∧ ∀ (later : List GoString) (w2 : World),
            w2 = handleCommands rconClient later (handleCommand rconClient "!seed".toList w) →
            w2.rconExecuted.count "/seed".toList = w.rconExecuted.count "/seed".toList + 1
            ∧ handleCommand rconClient "!seed".toList w2
              = { w2 with messagesToDiscord := w2.messagesToDiscord ++ [s] })
    ∧ (rconClient w.rconExecuted "/seed".toList = none →
        handleCommand rconClient "!seed".toList w
            = { w with
                rconExecuted := w.rconExecuted ++ ["/seed".toList],
                messagesToDiscord := w.messagesToDiscord ++ ["Unknown".toList] }
          ∧ (handleCommand rconClient "!seed".toList
                (handleCommand rconClient "!seed".toList w)).rconExecuted
              = w.rconExecuted ++ ["/seed".toList, "/seed".toList]) := by
  have e1 : ("!seed".toList = "!online".toList) = False := by decide
  constructor
  · intro s hs hne
    have hfirst : handleCommand rconClient "!seed".toList w
        = { w with
            seed := s,
            rconExecuted := w.rconExecuted ++ ["/seed".toList],
            messagesToDiscord := w.messagesToDiscord ++ [s] } := by
      simp only [handleCommand, e1, if_false, if_true, getSeedFromFactorio, ne_eq, hempty,
        not_true_eq_false, hs]
    refine ⟨hfirst, fun later w2 hw2 => ?_⟩
    have hseed1 : (handleCommand rconClient "!seed".toList w).seed ≠ [] := by
      rw [hfirst]; exact hne
    have hlater := handleCommands_seed_cached rconClient later _ hseed1
    rw [← hw2] at hlater
    have hseed2 : w2.seed = s := by
      rw [hlater.1, hfirst]
    constructor
    · rw [hlater.2, hfirst]
      simp [List.count_append]
    · rw [handleCommand_seed_hit rconClient w2 (by rw [hseed2]; exact hne), hseed2]
  · intro hs
    have hfirst : handleCommand rconClient "!seed".toList w
        = { w with
            rconExecuted := w.rconExecuted ++ ["/seed".toList],
            messagesToDiscord := w.messagesToDiscord ++ ["Unknown".toList] } := by
      simp only [handleCommand, e1, if_false, if_true, getSeedFromFactorio, ne_eq, hempty,
        not_true_eq_false, hs]
    refine ⟨hfirst, ?_⟩
    rw [hfirst]
    simp only [handleCommand, e1, if_false, if_true, getSeedFromFactorio, ne_eq, hempty,
      not_true_eq_false]
    split <;> simp

theorem seed_is_cached_witness :
    handleCommand seedOnce "!seed".toList
        (handleCommands seedOnce ["!evolution".toList, "!seed".toList]
          (handleCommand seedOnce "!seed".toList initialWorld))
      = { handleCommands seedOnce ["!evolution".toList, "!seed".toList]
            (handleCommand seedOnce "!seed".toList initialWorld) with
          messagesToDiscord :=
            ["3735928559".toList, "Unknown".toList, "3735928559".toList, "3735928559".toList] }
    ∧ handleCommand deadConsole "!seed".toList initialWorld
      = { initialWorld with
          rconExecuted := ["/seed".toList], messagesToDiscord := ["Unknown".toList] } :=
  ⟨(((seed_is_cached seedOnce initialWorld rfl).1 "3735928559".toList rfl (by decide)).2
      ["!evolution".toList, "!seed".toList] _ rfl).2,
   ((seed_is_cached deadConsole initialWorld rfl).2 rfl).1⟩

/-- C6 as stated fails for a console whose successful answer is the empty
string: the answer is not kept, and the second `!seed` executes `/seed` again
and replies with the new answer. -/
theorem seed_empty_answer_not_cached :
    emptyThenSeed initialWorld.rconExecuted "/seed".toList = some []
      ∧ (handleCommands emptyThenSeed ["!seed".toList, "!seed".toList] initialWorld).messagesToDiscord
          = [[], "3735928559".toList]
      ∧ (handleCommands emptyThenSeed ["!seed".toList, "!seed".toList] initialWorld).rconExecuted
          = ["/seed".toList, "/seed".toList] := by
  refine ⟨rfl, rfl, rfl⟩

/-! ## Evaluations at single inputs -/

/-- C2, evaluated: the classifier panics (result `none`) on lines whose tag is
known but whose remainder does not match the pattern of the tag. -/
theorem known_tag_without_fields_panics (config : botConfig) (w : World) :
    parseAndFormatMessage config "[CHAT]".toList w = none
      ∧ parseAndFormatMessage config "[FactoriGOChatBot] [RESEARCH_STARTED:".toList w = none
      ∧ parseAndFormatMessage config "[FactoriGOChatBot] [RESEARCH_FINISHED:".toList w = none
      ∧ parseAndFormatMessage config "[FactoriGOChatBot] [PLAYER_DIED:".toList w = none
      ∧ parseAndFormatMessage config "[FactoriGOChatBot] [ROCKET_LAUNCHED:".toList w = none
      ∧ parseAndFormatMessage { config with sendJoinLeave := true } "[JOIN]".toList w = none
      ∧ parseAndFormatMessage { config with sendJoinLeave := true } "[LEAVE]".toList w = none := by
  refine ⟨rfl, rfl, rfl, rfl, rfl, rfl, rfl⟩

/-- C4, evaluated: in achievement mode with `sendGPSPing` set, the echo of a
bridged message that holds `[gps=` is not dropped but returned as a map ping. -/
theorem server_echo_with_gps_is_forwarded (config : botConfig) (w : World) :
    parseAndFormatMessage { config with achievementMode := true, sendGPSPing := true }
        "[CHAT] <server>: [color=#7289DA][Discord][bob]: [gps=1,2][/color]".toList w
      = some (":map: | `<server>: [color=#7289DA][Discord][bob]`: [gps=1,2][/color]".toList, w)
    ∧ strings_HasPrefix "<server>: [color=#7289DA][Discord][bob]".toList "<server>: ".toList
      = true := by
  constructor <;> rfl

theorem strings_Replace_quote (m : GoString) :
    strings_Replace m "'".toList "\\'".toList = escapeQuotes m := by
  unfold strings_Replace
  have e : "'".toList = ['\''] := rfl
  have e2 : "\\'".toList = ['\\', '\''] := rfl
  rw [e, e2]
  induction m with
  | nil => rfl
  | cons c cs ih =>
    by_cases h : c = '\''
    · have hpre : ['\''].isPrefixOf (c :: cs) = true := by
        rw [List.isPrefixOf_iff_prefix, h]
        exact List.prefix_append ['\''] cs
      rw [replaceFrom, escapeQuotes, if_pos hpre, if_pos h, ← ih]
      rfl
    · have hpre : ¬ (['\''].isPrefixOf (c :: cs) = true) := by
        rw [List.isPrefixOf_iff_prefix]
        rintro ⟨r, hr⟩
        simp at hr
        exact h hr.1.symm
      rw [replaceFrom, escapeQuotes, if_neg hpre, if_neg h, ← ih]

theorem factorioCommand_plain (config : botConfig) (m : GoString)
    (h : config.achievementMode = false) :
    factorioCommand config m
      = "/silent-command game.print('[color=#7289DA][Discord]".toList ++ escapeQuotes m
          ++ "[/color]')".toList := by
  unfold factorioCommand
  rw [strings_Replace_quote, h]
  rfl

/-- C5, evaluated: for the message `[bob]: \'` the command handed to the
console is the stated frame around the escaped text, and in the escaped text
the quote stands after two backslashes, an even number. -/
theorem backslash_quote_is_not_escaped (config : botConfig) (w : World) :
    (sendMessageToFactorio { config with achievementMode := false } ["[bob]: \\'".toList]
        w).rconExecuted
        = w.rconExecuted
            ++ ["/silent-command game.print('[color=#7289DA][Discord][bob]: \\\\'[/color]')".toList]
      ∧ escapeQuotes "[bob]: \\'".toList = "[bob]: \\\\'".toList
      ∧ quotesEscapedFrom 0 (escapeQuotes "[bob]: \\'".toList) = false := by
  refine ⟨rfl, rfl, rfl⟩

end FactoriGO
